import Mathlib

set_option autoImplicit false

/-!
Verification of the ForesTracker entity storage / CRUD core.

Shallow embedding of `shared/schema.ts` (entity shapes and insert shapes),
`server/storage.ts` (the in-memory `MemStorage` engine) and `server/routes.ts`
(the Express route handlers relevant to the verified properties).

Modelling conventions:
* JS `number` is modelled by `Int` where the source only ever holds integers
  (ids, region references) and by `Rat` for `real` columns (quantity, value).
* `Date` values are modelled by their millisecond timestamp (`Nat`); the
  implicit `new Date()` calls become an explicit `now : Nat` parameter.
* A JS `Map<number, T>` is modelled by an association list kept in insertion
  order, matching `Map` iteration order: `set` on a fresh key appends, `set`
  on an existing key overwrites in place, `values()` lists in that order.
* `NaN` (the result of a failed `parseInt`) is modelled by `Option Int`
  being `none`; since every stored key is produced by the integer id counter,
  a `Map` lookup or delete with a `NaN` key misses.
* Nullable columns become `Option` fields; for stored records, a JS property
  that is `null` and one that is absent (`undefined`) are both modelled as
  `none` (nothing in the verified core distinguishes them).  In *partial*
  patches the presence of a key is significant, so a patch field is an
  `Option` of the insert field type.
-/

namespace ForesTracker

/-- JSON-like JS runtime values, used for the opaque `jsonb` columns
(GeoJSON coordinates) and for untyped request bodies fed to the zod
insert schemas.  `date` stands for a JS `Date` instance (millisecond time),
which `z.date()` accepts and which never arises from a parsed JSON body. -/
inductive JVal where
  | null : JVal
  | bool (b : Bool) : JVal
  | num (q : Rat) : JVal
  | str (s : String) : JVal
  | date (ms : Nat) : JVal
  | arr (xs : List JVal) : JVal
  | obj (fields : List (String × JVal)) : JVal

/-- First-match lookup in a JS object's field list. -/
def jGet (fields : List (String × JVal)) (k : String) : Option JVal :=
  match fields with
  | [] => none
  | (k', v) :: rest => if k' = k then some v else jGet rest k

/-- Lookup in a JS `Map` keyed by numbers (`Map.prototype.get`). -/
def mapGet {α : Type} (k : Int) : List (Int × α) → Option α
  | [] => none
  | (k', v) :: rest => if k' = k then some v else mapGet k rest

/-- The `Map.prototype.set`: overwrite in place if the key exists, else append. -/
def mapSet {α : Type} (k : Int) (v : α) : List (Int × α) → List (Int × α)
  | [] => [(k, v)]
  | (k', v') :: rest =>
    if k' = k then (k, v) :: rest else (k', v') :: mapSet k v rest

/-- The `Map.prototype.delete`: remove the entry if present, report whether it
was present. -/
def mapDelete {α : Type} (k : Int) : List (Int × α) → Bool × List (Int × α)
  | [] => (false, [])
  | (k', v') :: rest =>
    if k' = k then (true, rest)
    else
      let r := mapDelete k rest
      (r.1, (k', v') :: r.2)

/-- One entity collection of `MemStorage`: the backing `Map` plus the
auto-increment id counter for that entity. -/
structure Table (α : Type) where
  nextId : Int
  entries : List (Int × α)

/-- The `Array.from(map.values())`: records in insertion order. -/
def Table.values {α : Type} (t : Table α) : List α :=
  t.entries.map Prod.snd

/-- The keys currently present in the table `Map`. -/
def Table.keys {α : Type} (t : Table α) : List Int :=
  t.entries.map Prod.fst

/-- A freshly constructed collection: empty `Map`, counter at 1. -/
def Table.empty {α : Type} : Table α := ⟨1, []⟩

/- ============ Entity shapes (shared/schema.ts) ============ -/

/-- The `users` table row. `role` has a column default, so the insert schema
makes it optional and a stored row may lack it; `profileImage` is nullable. -/
structure User where
  id : Int
  username : String
  password : String
  fullName : String
  email : String
  role : Option String
  profileImage : Option String

/-- The `insertUserSchema` output: the picked writable fields of `users`. -/
structure InsertUser where
  username : String
  password : String
  fullName : String
  email : String
  role : Option String
  profileImage : Option String

/-- The `insertUserSchema.partial()` output: every field optional; the outer
`Option` records whether the key was present in the request body. -/
structure UserPatch where
  username : Option String := none
  password : Option String := none
  fullName : Option String := none
  email : Option String := none
  role : Option String := none
  profileImage : Option (Option String) := none

/-- The `regions` table row; `description` is nullable, `coordinates` is `jsonb`. -/
structure Region where
  id : Int
  name : String
  description : Option String
  coordinates : JVal

/-- The `insertRegionSchema` output. -/
structure InsertRegion where
  name : String
  description : Option String
  coordinates : JVal

/-- The `insertRegionSchema.partial()` output. -/
structure RegionPatch where
  name : Option String := none
  description : Option (Option String) := none
  coordinates : Option JVal := none

/-- The `locations` table row; `status` has a column default, `lastUpdated`
is server-assigned. -/
structure Location where
  id : Int
  regionId : Rat
  name : String
  status : Option String
  coordinates : JVal
  lastUpdated : Nat

/-- The `insertLocationSchema` output. -/
structure InsertLocation where
  regionId : Rat
  name : String
  status : Option String
  coordinates : JVal

/-- The `insertLocationSchema.partial()` output. -/
structure LocationPatch where
  regionId : Option Rat := none
  name : Option String := none
  status : Option String := none
  coordinates : Option JVal := none

/-- The `inventory` table row; `quantity` is a `real` column, `lastUpdated`
is server-assigned. -/
structure Inventory where
  id : Int
  type : String
  name : String
  quantity : Rat
  unit : String
  status : String
  lastUpdated : Nat

/-- The `insertInventorySchema` output: type, name, quantity, unit, status. -/
structure InsertInventory where
  type : String
  name : String
  quantity : Rat
  unit : String
  status : String

/-- The `insertInventorySchema.partial()` output. -/
structure InventoryPatch where
  type : Option String := none
  name : Option String := none
  quantity : Option Rat := none
  unit : Option String := none
  status : Option String := none

/-- The `activities` table row; `team` and `coordinates` are nullable,
`timestamp` is server-assigned. -/
structure Activity where
  id : Int
  userId : Rat
  type : String
  description : String
  location : String
  team : Option String
  timestamp : Nat
  coordinates : Option JVal

/-- The `insertActivitySchema` output. -/
structure InsertActivity where
  userId : Rat
  type : String
  description : String
  location : String
  team : Option String
  coordinates : Option JVal

/-- The `insertActivitySchema.partial()` output. -/
structure ActivityPatch where
  userId : Option Rat := none
  type : Option String := none
  description : Option String := none
  location : Option String := none
  team : Option (Option String) := none
  coordinates : Option (Option JVal) := none

/-- The `tasks` table row; `priority` and `status` have column defaults,
`description` and `assignedTo` and `completedAt` are nullable,
`completed`/`completedAt` are server-controlled. -/
structure Task where
  id : Int
  title : String
  description : Option String
  location : String
  priority : Option String
  status : Option String
  category : String
  assignedTo : Option Rat
  scheduledDate : Nat
  completed : Bool
  completedAt : Option Nat

/-- The `insertTaskSchema` output: the picked writable fields — note that
`completed` and `completedAt` are not picked. -/
structure InsertTask where
  title : String
  description : Option String
  location : String
  priority : Option String
  status : Option String
  category : String
  assignedTo : Option Rat
  scheduledDate : Nat

/-- The `insertTaskSchema.partial()` output. -/
structure TaskPatch where
  title : Option String := none
  description : Option (Option String) := none
  location : Option String := none
  priority : Option String := none
  status : Option String := none
  category : Option String := none
  assignedTo : Option (Option Rat) := none
  scheduledDate : Option Nat := none

/-- The `metrics` table row; `previousValue`, `changePercentage`, `trend`,
`icon` are nullable, `timestamp` is server-assigned. -/
structure Metric where
  id : Int
  name : String
  value : Rat
  unit : String
  previousValue : Option Rat
  changePercentage : Option Rat
  trend : Option String
  icon : Option String
  category : String
  timestamp : Nat

/-- The `insertMetricSchema` output. -/
structure InsertMetric where
  name : String
  value : Rat
  unit : String
  previousValue : Option Rat
  changePercentage : Option Rat
  trend : Option String
  icon : Option String
  category : String

/-- The `insertMetricSchema.partial()` output. -/
structure MetricPatch where
  name : Option String := none
  value : Option Rat := none
  unit : Option String := none
  previousValue : Option (Option Rat) := none
  changePercentage : Option (Option Rat) := none
  trend : Option (Option String) := none
  icon : Option (Option String) := none
  category : Option String := none

/-- The whole `MemStorage` instance: seven independent collections,
each with its own id counter. -/
structure St where
  users : Table User
  regions : Table Region
  locations : Table Location
  inventoryItems : Table Inventory
  activities : Table Activity
  tasks : Table Task
  metrics : Table Metric

/-- A `MemStorage` as built by the constructor before `seedData()` runs:
every map empty, every counter at 1. -/
def St.empty : St :=
  ⟨Table.empty, Table.empty, Table.empty, Table.empty, Table.empty,
   Table.empty, Table.empty⟩

/-- The `Array.prototype.slice(0, fin)`: a negative end index counts from the
end of the array; the result is always a prefix. -/
def jsSlice0 {α : Type} (fin : Int) (l : List α) : List α :=
  if fin < 0 then l.take ((l.length : Int) + fin).toNat else l.take fin.toNat

namespace MemStorage

/-- The `MemStorage.getUser`. -/
def getUser (id : Int) (st : St) : Option User :=
  mapGet id st.users.entries

/-- The `MemStorage.getUserByUsername`. -/
def getUserByUsername (username : String) (st : St) : Option User :=
  (st.users.values).find? (fun u => u.username == username)

/-- The `MemStorage.createUser`. -/
def createUser (u : InsertUser) (st : St) : User × St :=
  let id := st.users.nextId
  let user : User :=
    { id := id, username := u.username, password := u.password,
      fullName := u.fullName, email := u.email, role := u.role,
      profileImage := u.profileImage }
  (user, { st with users := ⟨id + 1, mapSet id user st.users.entries⟩ })

/-- The `MemStorage.getUsers`. -/
def getUsers (st : St) : List User :=
  st.users.values

/-- The `MemStorage.updateUser`: shallow merge of the patch over the stored record. -/
def updateUser (id : Int) (p : UserPatch) (st : St) : Option User × St :=
  match mapGet id st.users.entries with
  | none => (none, st)
  | some u =>
    let m : User :=
      { id := u.id,
        username := p.username.getD u.username,
        password := p.password.getD u.password,
        fullName := p.fullName.getD u.fullName,
        email := p.email.getD u.email,
        role := match p.role with | some r => some r | none => u.role,
        profileImage := p.profileImage.getD u.profileImage }
    (some m, { st with users := ⟨st.users.nextId, mapSet id m st.users.entries⟩ })

/-- The `MemStorage.deleteUser`. -/
def deleteUser (id : Int) (st : St) : Bool × St :=
  let r := mapDelete id st.users.entries
  (r.1, { st with users := ⟨st.users.nextId, r.2⟩ })

/-- The `MemStorage.getRegion`. -/
def getRegion (id : Int) (st : St) : Option Region :=
  mapGet id st.regions.entries

/-- The `MemStorage.getRegions`. -/
def getRegions (st : St) : List Region :=
  st.regions.values

/-- The `MemStorage.createRegion`. -/
def createRegion (r : InsertRegion) (st : St) : Region × St :=
  let id := st.regions.nextId
  let region : Region :=
    { id := id, name := r.name, description := r.description,
      coordinates := r.coordinates }
  (region, { st with regions := ⟨id + 1, mapSet id region st.regions.entries⟩ })

/-- The `MemStorage.updateRegion`. -/
def updateRegion (id : Int) (p : RegionPatch) (st : St) : Option Region × St :=
  match mapGet id st.regions.entries with
  | none => (none, st)
  | some r =>
    let m : Region :=
      { id := r.id,
        name := p.name.getD r.name,
        description := p.description.getD r.description,
        coordinates := p.coordinates.getD r.coordinates }
    (some m, { st with regions := ⟨st.regions.nextId, mapSet id m st.regions.entries⟩ })

/-- The `MemStorage.deleteRegion`. -/
def deleteRegion (id : Int) (st : St) : Bool × St :=
  let r := mapDelete id st.regions.entries
  (r.1, { st with regions := ⟨st.regions.nextId, r.2⟩ })

/-- The `MemStorage.getLocation`. -/
def getLocation (id : Int) (st : St) : Option Location :=
  mapGet id st.locations.entries

/-- The `MemStorage.getLocations`. -/
def getLocations (st : St) : List Location :=
  st.locations.values

/-- The `MemStorage.getLocationsByRegion`. -/
def getLocationsByRegion (regionId : Rat) (st : St) : List Location :=
  (st.locations.values).filter (fun l => l.regionId == regionId)

/-- The `MemStorage.createLocation`: assigns `lastUpdated: new Date()`. -/
def createLocation (l : InsertLocation) (now : Nat) (st : St) : Location × St :=
  let id := st.locations.nextId
  let location : Location :=
    { id := id, regionId := l.regionId, name := l.name, status := l.status,
      coordinates := l.coordinates, lastUpdated := now }
  (location,
   { st with locations := ⟨id + 1, mapSet id location st.locations.entries⟩ })

/-- The `MemStorage.updateLocation`: shallow merge, then `lastUpdated: new Date()`. -/
def updateLocation (id : Int) (p : LocationPatch) (now : Nat) (st : St) :
    Option Location × St :=
  match mapGet id st.locations.entries with
  | none => (none, st)
  | some l =>
    let m : Location :=
      { id := l.id,
        regionId := p.regionId.getD l.regionId,
        name := p.name.getD l.name,
        status := match p.status with | some s => some s | none => l.status,
        coordinates := p.coordinates.getD l.coordinates,
        lastUpdated := now }
    (some m,
     { st with locations := ⟨st.locations.nextId, mapSet id m st.locations.entries⟩ })

/-- The `MemStorage.deleteLocation`. -/
def deleteLocation (id : Int) (st : St) : Bool × St :=
  let r := mapDelete id st.locations.entries
  (r.1, { st with locations := ⟨st.locations.nextId, r.2⟩ })

/-- The `MemStorage.getInventoryItem`. -/
def getInventoryItem (id : Int) (st : St) : Option Inventory :=
  mapGet id st.inventoryItems.entries

/-- The `MemStorage.getInventoryItems`. -/
def getInventoryItems (st : St) : List Inventory :=
  st.inventoryItems.values

/-- The `MemStorage.createInventoryItem`: assigns `lastUpdated: new Date()`. -/
def createInventoryItem (i : InsertInventory) (now : Nat) (st : St) :
    Inventory × St :=
  let id := st.inventoryItems.nextId
  let item : Inventory :=
    { id := id, type := i.type, name := i.name, quantity := i.quantity,
      unit := i.unit, status := i.status, lastUpdated := now }
  (item,
   { st with inventoryItems := ⟨id + 1, mapSet id item st.inventoryItems.entries⟩ })

/-- The `MemStorage.updateInventoryItem`: shallow merge, then refresh `lastUpdated`. -/
def updateInventoryItem (id : Int) (p : InventoryPatch) (now : Nat) (st : St) :
    Option Inventory × St :=
  match mapGet id st.inventoryItems.entries with
  | none => (none, st)
  | some i =>
    let m : Inventory :=
      { id := i.id,
        type := p.type.getD i.type,
        name := p.name.getD i.name,
        quantity := p.quantity.getD i.quantity,
        unit := p.unit.getD i.unit,
        status := p.status.getD i.status,
        lastUpdated := now }
    (some m,
     { st with inventoryItems := ⟨st.inventoryItems.nextId, mapSet id m st.inventoryItems.entries⟩ })

/-- The `MemStorage.deleteInventoryItem`. -/
def deleteInventoryItem (id : Int) (st : St) : Bool × St :=
  let r := mapDelete id st.inventoryItems.entries
  (r.1, { st with inventoryItems := ⟨st.inventoryItems.nextId, r.2⟩ })

/-- The `MemStorage.getActivity`. -/
def getActivity (id : Int) (st : St) : Option Activity :=
  mapGet id st.activities.entries

/-- The `MemStorage.getActivities`. -/
def getActivities (st : St) : List Activity :=
  st.activities.values

/-- The `MemStorage.getRecentActivities`: sort by timestamp descending (stable),
then `slice(0, limit)`. -/
def getRecentActivities (limit : Int) (st : St) : List Activity :=
  jsSlice0 limit
    ((st.activities.values).mergeSort (fun a b => decide (b.timestamp ≤ a.timestamp)))

/-- The `MemStorage.createActivity`: assigns `timestamp: new Date()`. -/
def createActivity (a : InsertActivity) (now : Nat) (st : St) : Activity × St :=
  let id := st.activities.nextId
  let activity : Activity :=
    { id := id, userId := a.userId, type := a.type,
      description := a.description, location := a.location, team := a.team,
      timestamp := now, coordinates := a.coordinates }
  (activity,
   { st with activities := ⟨id + 1, mapSet id activity st.activities.entries⟩ })

/-- The `MemStorage.updateActivity`: shallow merge, `timestamp` not refreshed. -/
def updateActivity (id : Int) (p : ActivityPatch) (st : St) :
    Option Activity × St :=
  match mapGet id st.activities.entries with
  | none => (none, st)
  | some a =>
    let m : Activity :=
      { id := a.id,
        userId := p.userId.getD a.userId,
        type := p.type.getD a.type,
        description := p.description.getD a.description,
        location := p.location.getD a.location,
        team := p.team.getD a.team,
        timestamp := a.timestamp,
        coordinates := p.coordinates.getD a.coordinates }
    (some m,
     { st with activities := ⟨st.activities.nextId, mapSet id m st.activities.entries⟩ })

/-- The `MemStorage.deleteActivity`. -/
def deleteActivity (id : Int) (st : St) : Bool × St :=
  let r := mapDelete id st.activities.entries
  (r.1, { st with activities := ⟨st.activities.nextId, r.2⟩ })

/-- The `MemStorage.getTask`. -/
def getTask (id : Int) (st : St) : Option Task :=
  mapGet id st.tasks.entries

/-- The `MemStorage.getTasks`. -/
def getTasks (st : St) : List Task :=
  st.tasks.values

/-- The `MemStorage.getUpcomingTasks`: keep tasks that are not completed and are
scheduled strictly after `now`, sort ascending by `scheduledDate` (stable),
then `slice(0, limit)`. -/
def getUpcomingTasks (now : Nat) (limit : Int) (st : St) : List Task :=
  jsSlice0 limit
    (((st.tasks.values).filter
        (fun t => !t.completed && decide (now < t.scheduledDate))).mergeSort
      (fun a b => decide (a.scheduledDate ≤ b.scheduledDate)))

/-- The `MemStorage.createTask`: server initialises `completed: false`,
`completedAt: null`. -/
def createTask (t : InsertTask) (st : St) : Task × St :=
  let id := st.tasks.nextId
  let task : Task :=
    { id := id, title := t.title, description := t.description,
      location := t.location, priority := t.priority, status := t.status,
      category := t.category, assignedTo := t.assignedTo,
      scheduledDate := t.scheduledDate, completed := false,
      completedAt := none }
  (task, { st with tasks := ⟨id + 1, mapSet id task st.tasks.entries⟩ })

/-- The `MemStorage.updateTask`: shallow merge of the picked insert fields only;
`completed` and `completedAt` are not in the patch shape. -/
def updateTask (id : Int) (p : TaskPatch) (st : St) : Option Task × St :=
  match mapGet id st.tasks.entries with
  | none => (none, st)
  | some t =>
    let m : Task :=
      { id := t.id,
        title := p.title.getD t.title,
        description := p.description.getD t.description,
        location := p.location.getD t.location,
        priority := match p.priority with | some s => some s | none => t.priority,
        status := match p.status with | some s => some s | none => t.status,
        category := p.category.getD t.category,
        assignedTo := p.assignedTo.getD t.assignedTo,
        scheduledDate := p.scheduledDate.getD t.scheduledDate,
        completed := t.completed,
        completedAt := t.completedAt }
    (some m, { st with tasks := ⟨st.tasks.nextId, mapSet id m st.tasks.entries⟩ })

/-- The `MemStorage.completeTask`: sets `completed` to true, `status` to completed,
`completedAt: new Date()`. -/
def completeTask (id : Int) (now : Nat) (st : St) : Option Task × St :=
  match mapGet id st.tasks.entries with
  | none => (none, st)
  | some t =>
    let c : Task :=
      { t with completed := true, status := some "completed",
               completedAt := some now }
    (some c, { st with tasks := ⟨st.tasks.nextId, mapSet id c st.tasks.entries⟩ })

/-- The `MemStorage.deleteTask`. -/
def deleteTask (id : Int) (st : St) : Bool × St :=
  let r := mapDelete id st.tasks.entries
  (r.1, { st with tasks := ⟨st.tasks.nextId, r.2⟩ })

/-- The `MemStorage.getMetric`. -/
def getMetric (id : Int) (st : St) : Option Metric :=
  mapGet id st.metrics.entries

/-- The `MemStorage.getMetrics`. -/
def getMetrics (st : St) : List Metric :=
  st.metrics.values

/-- The fixed category list of `MemStorage.getLatestMetrics`. -/
def metricCategories : List String :=
  ["coverage", "species", "risk", "health"]

/-- The `MemStorage.getLatestMetrics`: for each fixed category, filter the
metrics of that category, sort by timestamp descending (stable), and push
the first element if the category is non-empty. -/
def getLatestMetrics (st : St) : List Metric :=
  metricCategories.filterMap (fun c =>
    (((st.metrics.values).filter (fun m => m.category == c)).mergeSort
      (fun a b => decide (b.timestamp ≤ a.timestamp))).head?)

/-- The `MemStorage.createMetric`: assigns `timestamp: new Date()`. -/
def createMetric (m : InsertMetric) (now : Nat) (st : St) : Metric × St :=
  let id := st.metrics.nextId
  let metric : Metric :=
    { id := id, name := m.name, value := m.value, unit := m.unit,
      previousValue := m.previousValue,
      changePercentage := m.changePercentage, trend := m.trend,
      icon := m.icon, category := m.category, timestamp := now }
  (metric, { st with metrics := ⟨id + 1, mapSet id metric st.metrics.entries⟩ })

/-- The `MemStorage.updateMetric`: shallow merge, `timestamp` not refreshed. -/
def updateMetric (id : Int) (p : MetricPatch) (st : St) : Option Metric × St :=
  match mapGet id st.metrics.entries with
  | none => (none, st)
  | some m =>
    let u : Metric :=
      { id := m.id,
        name := p.name.getD m.name,
        value := p.value.getD m.value,
        unit := p.unit.getD m.unit,
        previousValue := p.previousValue.getD m.previousValue,
        changePercentage := p.changePercentage.getD m.changePercentage,
        trend := p.trend.getD m.trend,
        icon := p.icon.getD m.icon,
        category := p.category.getD m.category,
        timestamp := m.timestamp }
    (some u, { st with metrics := ⟨st.metrics.nextId, mapSet id u st.metrics.entries⟩ })

/-- The `MemStorage.deleteMetric`. -/
def deleteMetric (id : Int) (st : St) : Bool × St :=
  let r := mapDelete id st.metrics.entries
  (r.1, { st with metrics := ⟨st.metrics.nextId, r.2⟩ })

end MemStorage

/- ============ Seed data (MemStorage.seedData) ============ -/

/-- A GeoJSON point literal as passed in the seed data. -/
def jPoint (lat lng : Rat) : JVal :=
  .obj [("type", .str "Point"), ("coordinates", .arr [.num lat, .num lng])]

/-- A GeoJSON polygon literal (single ring) as passed in the seed data. -/
def jPolygon (ring : List (Rat × Rat)) : JVal :=
  .obj [("type", .str "Polygon"),
        ("coordinates", .arr [.arr (ring.map (fun p => .arr [.num p.1, .num p.2]))])]

/-- Milliseconds in a day, for the future scheduled dates of the seed tasks
(`setDate(getDate() + n)` advances `n` calendar days). -/
def dayMs : Nat := 86400000

/-- The `MemStorage.seedData()` run on the freshly constructed empty storage,
with `now` the construction time: 3 users, 4 regions, 3 locations,
4 inventory items, 4 activities, 3 tasks, 4 metrics. -/
def seedStore (now : Nat) : St :=
  let s := St.empty
  let s := (MemStorage.createUser
    ⟨"admin", "admin123", "Admin User", "admin@forestmanager.com",
     some "admin", none⟩ s).2
  let s := (MemStorage.createUser
    ⟨"jforester", "password123", "John Forester", "john@forestmanager.com",
     some "manager", none⟩ s).2
  let s := (MemStorage.createUser
    ⟨"fieldworker", "field123", "Field Worker", "field@forestmanager.com",
     some "field_worker", none⟩ s).2
  let s := (MemStorage.createRegion
    ⟨"North Region", some "Northern forest area with pine and spruce trees",
     jPolygon [(45.3, -122.7), (45.4, -122.7), (45.4, -122.6), (45.3, -122.6),
               (45.3, -122.7)]⟩ s).2
  let s := (MemStorage.createRegion
    ⟨"East Region", some "Eastern forest with mixed deciduous trees",
     jPolygon [(45.2, -122.5), (45.3, -122.5), (45.3, -122.4), (45.2, -122.4),
               (45.2, -122.5)]⟩ s).2
  let s := (MemStorage.createRegion
    ⟨"South Region", some "Southern forest border with oak and maple",
     jPolygon [(45.1, -122.6), (45.2, -122.6), (45.2, -122.5), (45.1, -122.5),
               (45.1, -122.6)]⟩ s).2
  let s := (MemStorage.createRegion
    ⟨"West Region", some "Western border with mixed coniferous forest",
     jPolygon [(45.2, -122.8), (45.3, -122.8), (45.3, -122.7), (45.2, -122.7),
               (45.2, -122.8)]⟩ s).2
  let s := (MemStorage.createLocation
    ⟨1, "North Ridge Trail", some "healthy", jPoint 45.35 (-122.75)⟩ now s).2
  let s := (MemStorage.createLocation
    ⟨2, "East Forest Boundary", some "monitoring", jPoint 45.25 (-122.45)⟩ now s).2
  let s := (MemStorage.createLocation
    ⟨3, "Southern Clearing", some "critical", jPoint 45.15 (-122.55)⟩ now s).2
  let s := (MemStorage.createInventoryItem
    ⟨"plant", "Pine Saplings", 1250, "units", "available"⟩ now s).2
  let s := (MemStorage.createInventoryItem
    ⟨"water", "Water Reserves", 15000, "liters", "low_supply"⟩ now s).2
  let s := (MemStorage.createInventoryItem
    ⟨"fertilizer", "Fertilizer", 500, "kg", "available"⟩ now s).2
  let s := (MemStorage.createInventoryItem
    ⟨"tools", "Tools", 45, "sets", "maintenance"⟩ now s).2
  let s := (MemStorage.createActivity
    ⟨2, "planting", "Planted 250 new saplings", "North Sector",
     some "Field Team Alpha", some (jPoint 45.34 (-122.72))⟩ now s).2
  let s := (MemStorage.createActivity
    ⟨3, "monitoring", "Soil quality assessment completed", "East Sector",
     some "Research Team", some (jPoint 45.26 (-122.47))⟩ now s).2
  let s := (MemStorage.createActivity
    ⟨2, "maintenance", "Pest detection alert", "South Sector",
     some "Monitoring Station 4", some (jPoint 45.14 (-122.56))⟩ now s).2
  let s := (MemStorage.createActivity
    ⟨3, "maintenance", "Irrigation system maintenance", "West Sector",
     some "Maintenance Team", some (jPoint 45.24 (-122.76))⟩ now s).2
  let s := (MemStorage.createTask
    ⟨"Weekly tree health inspection",
     some "Complete standard health assessment for all trees in sector",
     "North Region", some "normal", some "pending", "routine", some 2,
     now + 5 * dayMs⟩ s).2
  let s := (MemStorage.createTask
    ⟨"Trail maintenance and clearing",
     some "Clear fallen branches and repair walking paths",
     "East Region", some "normal", some "pending", "maintenance", some 3,
     now + 7 * dayMs⟩ s).2
  let s := (MemStorage.createTask
    ⟨"Wildlife census preparations",
     some "Set up camera traps and prepare for upcoming wildlife count",
     "All Regions", some "high", some "pending", "monitoring", some 2,
     now + 10 * dayMs⟩ s).2
  let s := (MemStorage.createMetric
    ⟨"Forest Coverage", 12450, "ha", some 12150, some 2.4, some "up",
     some "park", "coverage"⟩ now s).2
  let s := (MemStorage.createMetric
    ⟨"Tree Species", 78, "species", some 73, some 6.8, some "up",
     some "eco", "species"⟩ now s).2
  let s := (MemStorage.createMetric
    ⟨"Fire Risk Index", 24, "", some 21, some 12, some "up",
     some "local_fire_department", "risk"⟩ now s).2
  let s := (MemStorage.createMetric
    ⟨"Health Index", 87.5, "%", some 84.8, some 3.2, some "up",
     some "monitor_heart", "health"⟩ now s).2
  s

/- ============ parseInt (JS semantics) ============ -/

/-- Value of a decimal digit character, if it is one. -/
def decDigit? (c : Char) : Option Nat :=
  if c.isDigit then some (c.toNat - 48) else none

/-- Value of a hexadecimal digit character, if it is one. -/
def hexDigit? (c : Char) : Option Nat :=
  if c.isDigit then some (c.toNat - 48)
  else if 'a' ≤ c ∧ c ≤ 'f' then some (c.toNat - 87)
  else if 'A' ≤ c ∧ c ≤ 'F' then some (c.toNat - 55)
  else none

/-- Accumulate the longest prefix of digits. -/
def parseDigitsAux (digit? : Char → Option Nat) (base : Nat) :
    Nat → List Char → Nat
  | acc, [] => acc
  | acc, c :: rest =>
    match digit? c with
    | some d => parseDigitsAux digit? base (base * acc + d) rest
    | none => acc

/-- Parse the longest non-empty prefix of digits; `none` if there is none. -/
def parseDigitsJs (digit? : Char → Option Nat) (base : Nat)
    (cs : List Char) : Option Nat :=
  match cs with
  | [] => none
  | c :: rest =>
    match digit? c with
    | none => none
    | some d => some (parseDigitsAux digit? base d rest)

/-- JS `parseInt(s)` (no explicit radix): skip leading whitespace, optional
sign, optional `0x`/`0X` prefix selecting radix 16, then the longest prefix
of radix digits; `none` stands for `NaN`. -/
def parseIntJs (s : String) : Option Int :=
  let cs := s.toList.dropWhile Char.isWhitespace
  let signed : Int × List Char :=
    match cs with
    | '-' :: rest => (-1, rest)
    | '+' :: rest => (1, rest)
    | _ => (1, cs)
  let body : Option Nat :=
    match signed.2 with
    | '0' :: c :: rest =>
      if c = 'x' ∨ c = 'X' then parseDigitsJs hexDigit? 16 rest
      else parseDigitsJs decDigit? 10 signed.2
    | other => parseDigitsJs decDigit? 10 other
  body.map (fun n => signed.1 * n)

/- ============ zod insert-schema parsing (routes.ts + drizzle-zod) ===== -/

/-- The `z.string()` on a required object property. -/
def zString : Option JVal → Option String
  | some (.str s) => some s
  | _ => none

/-- The `z.number()` on a required object property. -/
def zNumber : Option JVal → Option Rat
  | some (.num q) => some q
  | _ => none

/-- The `z.string().nullable().optional()` (nullable column): an absent key and
an explicit `null` both produce `none`. -/
def zOptNullString : Option JVal → Option (Option String)
  | none => some none
  | some .null => some none
  | some (.str s) => some (some s)
  | _ => none

/-- The `z.string().optional()` (column with a default): key may be absent. -/
def zOptString : Option JVal → Option (Option String)
  | none => some none
  | some (.str s) => some (some s)
  | _ => none

/-- The `z.number().nullable().optional()` (nullable numeric column). -/
def zOptNullNumber : Option JVal → Option (Option Rat)
  | none => some none
  | some .null => some none
  | some (.num q) => some (some q)
  | _ => none

/-- The `z.date()` on a required property: only a `Date` instance is accepted. -/
def zDate : Option JVal → Option Nat
  | some (.date ms) => some ms
  | _ => none

/-- The `insertInventorySchema.parse`: requires string `type`, `name`, `unit`,
`status` and numeric `quantity`; there is no range constraint on
`quantity`.  Unknown keys are stripped. -/
def parseInsertInventory (body : JVal) : Option InsertInventory :=
  match body with
  | .obj fields =>
    match zString (jGet fields "type"), zString (jGet fields "name"),
          zNumber (jGet fields "quantity"), zString (jGet fields "unit"),
          zString (jGet fields "status") with
    | some t, some n, some q, some u, some s => some ⟨t, n, q, u, s⟩
    | _, _, _, _, _ => none
  | _ => none

/-- The `insertTaskSchema.parse`: the picked fields only — `completed` and
`completedAt` are never read.  `scheduledDate` is a `z.date()`. -/
def parseInsertTask (body : JVal) : Option InsertTask :=
  match body with
  | .obj fields =>
    match zString (jGet fields "title"),
          zOptNullString (jGet fields "description"),
          zString (jGet fields "location"),
          zOptString (jGet fields "priority"),
          zOptString (jGet fields "status"),
          zString (jGet fields "category"),
          zOptNullNumber (jGet fields "assignedTo"),
          zDate (jGet fields "scheduledDate") with
    | some t, some d, some l, some p, some st, some c, some a, some sd =>
      some ⟨t, d, l, p, st, c, a, sd⟩
    | _, _, _, _, _, _, _, _ => none
  | _ => none

/-- The `insertTaskSchema.partial().parse`: every picked field optional;
`completed` and `completedAt` are never read. -/
def parseTaskPatch (body : JVal) : Option TaskPatch :=
  match body with
  | .obj fields =>
    let title := match jGet fields "title" with
      | none => some none | some (.str s) => some (some s) | _ => none
    let descr := match jGet fields "description" with
      | none => some none | some .null => some (some none)
      | some (.str s) => some (some (some s)) | _ => none
    let loc := match jGet fields "location" with
      | none => some none | some (.str s) => some (some s) | _ => none
    let prio := match jGet fields "priority" with
      | none => some none | some (.str s) => some (some s) | _ => none
    let stat := match jGet fields "status" with
      | none => some none | some (.str s) => some (some s) | _ => none
    let cat := match jGet fields "category" with
      | none => some none | some (.str s) => some (some s) | _ => none
    let asg := match jGet fields "assignedTo" with
      | none => some none | some .null => some (some none)
      | some (.num q) => some (some (some q)) | _ => none
    let sched := match jGet fields "scheduledDate" with
      | none => some none | some (.date ms) => some (some ms) | _ => none
    match title, descr, loc, prio, stat, cat, asg, sched with
    | some t, some d, some l, some p, some st, some c, some a, some sd =>
      some ⟨t, d, l, p, st, c, a, sd⟩
    | _, _, _, _, _, _, _, _ => none
  | _ => none

/- ============ API layer (routes.ts) ============ -/

/-- An HTTP response as produced by the handlers: either a success payload
or an error object with a message. -/
inductive ApiResp (α : Type) where
  | ok (status : Nat) (val : α)
  | err (status : Nat) (error : String)

/-- The HTTP status code of a response. -/
def ApiResp.statusCode {α : Type} : ApiResp α → Nat
  | .ok s _ => s
  | .err s _ => s

/-!
Route handlers.  Each `:id` handler runs `parseInt(req.params.id)` and hands
the resulting number — possibly `NaN`, modelled as `none` — to the storage
method.  A `Map` lookup/delete keyed by `NaN` misses, because every key ever
stored was assigned by the integer id counter; the `none` branches of the
handlers encode exactly that miss.  `PUT` handlers are modelled after body
validation succeeded (an invalid body is a 400 before the id is ever used).
-/

/-- The `GET /api/users/:id`. -/
def getUserRoute (s : String) (st : St) : ApiResp User × St :=
  match (parseIntJs s).bind (fun k => MemStorage.getUser k st) with
  | none => (.err 404 "User not found", st)
  | some u => (.ok 200 u, st)

/-- The `PUT /api/users/:id` (body already validated). -/
def putUserRoute (s : String) (p : UserPatch) (st : St) : ApiResp User × St :=
  let r := match parseIntJs s with
    | some k => MemStorage.updateUser k p st
    | none => (none, st)
  match r.1 with
  | none => (.err 404 "User not found", r.2)
  | some u => (.ok 200 u, r.2)

/-- The `DELETE /api/users/:id`. -/
def deleteUserRoute (s : String) (st : St) : ApiResp Unit × St :=
  let r := match parseIntJs s with
    | some k => MemStorage.deleteUser k st
    | none => (false, st)
  if r.1 then (.ok 204 (), r.2) else (.err 404 "User not found", r.2)

/-- The `GET /api/regions/:id`. -/
def getRegionRoute (s : String) (st : St) : ApiResp Region × St :=
  match (parseIntJs s).bind (fun k => MemStorage.getRegion k st) with
  | none => (.err 404 "Region not found", st)
  | some r => (.ok 200 r, st)

/-- The `PUT /api/regions/:id` (body already validated). -/
def putRegionRoute (s : String) (p : RegionPatch) (st : St) :
    ApiResp Region × St :=
  let r := match parseIntJs s with
    | some k => MemStorage.updateRegion k p st
    | none => (none, st)
  match r.1 with
  | none => (.err 404 "Region not found", r.2)
  | some v => (.ok 200 v, r.2)

/-- The `DELETE /api/regions/:id`. -/
def deleteRegionRoute (s : String) (st : St) : ApiResp Unit × St :=
  let r := match parseIntJs s with
    | some k => MemStorage.deleteRegion k st
    | none => (false, st)
  if r.1 then (.ok 204 (), r.2) else (.err 404 "Region not found", r.2)

/-- The `GET /api/locations`: `regionId` query filter, gated on truthiness of
the parsed number (`undefined`, empty string, `NaN` and `0` all fall through
to the unfiltered list). -/
def getLocationsRoute (q : Option String) (st : St) : List Location :=
  let regionId : Option (Option Int) :=
    match q with
    | some s => if s = "" then none else some (parseIntJs s)
    | none => none
  match regionId with
  | some (some k) =>
    if k ≠ 0 then MemStorage.getLocationsByRegion (k : Rat) st
    else MemStorage.getLocations st
  | _ => MemStorage.getLocations st

/-- The `GET /api/locations/:id`. -/
def getLocationRoute (s : String) (st : St) : ApiResp Location × St :=
  match (parseIntJs s).bind (fun k => MemStorage.getLocation k st) with
  | none => (.err 404 "Location not found", st)
  | some l => (.ok 200 l, st)

/-- The `PUT /api/locations/:id` (body already validated). -/
def putLocationRoute (s : String) (p : LocationPatch) (now : Nat) (st : St) :
    ApiResp Location × St :=
  let r := match parseIntJs s with
    | some k => MemStorage.updateLocation k p now st
    | none => (none, st)
  match r.1 with
  | none => (.err 404 "Location not found", r.2)
  | some v => (.ok 200 v, r.2)

/-- The `DELETE /api/locations/:id`. -/
def deleteLocationRoute (s : String) (st : St) : ApiResp Unit × St :=
  let r := match parseIntJs s with
    | some k => MemStorage.deleteLocation k st
    | none => (false, st)
  if r.1 then (.ok 204 (), r.2) else (.err 404 "Location not found", r.2)

/-- The `POST /api/inventory`: validate the body with `insertInventorySchema`,
400 on a `ZodError` (with the `fromZodError` message, modelled as an opaque
string), else create and answer 201. -/
def postInventoryRoute (body : JVal) (now : Nat) (st : St) :
    ApiResp Inventory × St :=
  match parseInsertInventory body with
  | none => (.err 400 "Validation error", st)
  | some item =>
    let r := MemStorage.createInventoryItem item now st
    (.ok 201 r.1, r.2)

/-- The `GET /api/inventory/:id`. -/
def getInventoryRoute (s : String) (st : St) : ApiResp Inventory × St :=
  match (parseIntJs s).bind (fun k => MemStorage.getInventoryItem k st) with
  | none => (.err 404 "Inventory item not found", st)
  | some i => (.ok 200 i, st)

/-- The `PUT /api/inventory/:id` (body already validated). -/
def putInventoryRoute (s : String) (p : InventoryPatch) (now : Nat) (st : St) :
    ApiResp Inventory × St :=
  let r := match parseIntJs s with
    | some k => MemStorage.updateInventoryItem k p now st
    | none => (none, st)
  match r.1 with
  | none => (.err 404 "Inventory item not found", r.2)
  | some v => (.ok 200 v, r.2)

/-- The `DELETE /api/inventory/:id`. -/
def deleteInventoryRoute (s : String) (st : St) : ApiResp Unit × St :=
  let r := match parseIntJs s with
    | some k => MemStorage.deleteInventoryItem k st
    | none => (false, st)
  if r.1 then (.ok 204 (), r.2) else (.err 404 "Inventory item not found", r.2)

/-- The `GET /api/activities/:id`. -/
def getActivityRoute (s : String) (st : St) : ApiResp Activity × St :=
  match (parseIntJs s).bind (fun k => MemStorage.getActivity k st) with
  | none => (.err 404 "Activity not found", st)
  | some a => (.ok 200 a, st)

/-- The `PUT /api/activities/:id` (body already validated). -/
def putActivityRoute (s : String) (p : ActivityPatch) (st : St) :
    ApiResp Activity × St :=
  let r := match parseIntJs s with
    | some k => MemStorage.updateActivity k p st
    | none => (none, st)
  match r.1 with
  | none => (.err 404 "Activity not found", r.2)
  | some v => (.ok 200 v, r.2)

/-- The `DELETE /api/activities/:id`. -/
def deleteActivityRoute (s : String) (st : St) : ApiResp Unit × St :=
  let r := match parseIntJs s with
    | some k => MemStorage.deleteActivity k st
    | none => (false, st)
  if r.1 then (.ok 204 (), r.2) else (.err 404 "Activity not found", r.2)

/-- The `GET /api/tasks/:id`. -/
def getTaskRoute (s : String) (st : St) : ApiResp Task × St :=
  match (parseIntJs s).bind (fun k => MemStorage.getTask k st) with
  | none => (.err 404 "Task not found", st)
  | some t => (.ok 200 t, st)

/-- The `POST /api/tasks`: validate against `insertTaskSchema`, then create. -/
def postTaskRoute (body : JVal) (st : St) : ApiResp Task × St :=
  match parseInsertTask body with
  | none => (.err 400 "Validation error", st)
  | some p =>
    let r := MemStorage.createTask p st
    (.ok 201 r.1, r.2)

/-- The `PUT /api/tasks/:id` (body already validated). -/
def putTaskRoute (s : String) (p : TaskPatch) (st : St) : ApiResp Task × St :=
  let r := match parseIntJs s with
    | some k => MemStorage.updateTask k p st
    | none => (none, st)
  match r.1 with
  | none => (.err 404 "Task not found", r.2)
  | some v => (.ok 200 v, r.2)

/-- The `PUT /api/tasks/:id` with the raw body: validate against
`insertTaskSchema.partial()`, 400 on failure, otherwise update. -/
def putTaskBodyRoute (s : String) (body : JVal) (st : St) : ApiResp Task × St :=
  match parseTaskPatch body with
  | none => (.err 400 "Validation error", st)
  | some p => putTaskRoute s p st

/-- The `PUT /api/tasks/:id/complete`. -/
def completeTaskRoute (s : String) (now : Nat) (st : St) : ApiResp Task × St :=
  let r := match parseIntJs s with
    | some k => MemStorage.completeTask k now st
    | none => (none, st)
  match r.1 with
  | none => (.err 404 "Task not found", r.2)
  | some t => (.ok 200 t, r.2)

/-- The `DELETE /api/tasks/:id`. -/
def deleteTaskRoute (s : String) (st : St) : ApiResp Unit × St :=
  let r := match parseIntJs s with
    | some k => MemStorage.deleteTask k st
    | none => (false, st)
  if r.1 then (.ok 204 (), r.2) else (.err 404 "Task not found", r.2)

/-- The `GET /api/metrics/:id`. -/
def getMetricRoute (s : String) (st : St) : ApiResp Metric × St :=
  match (parseIntJs s).bind (fun k => MemStorage.getMetric k st) with
  | none => (.err 404 "Metric not found", st)
  | some m => (.ok 200 m, st)

/-- The `PUT /api/metrics/:id` (body already validated). -/
def putMetricRoute (s : String) (p : MetricPatch) (st : St) :
    ApiResp Metric × St :=
  let r := match parseIntJs s with
    | some k => MemStorage.updateMetric k p st
    | none => (none, st)
  match r.1 with
  | none => (.err 404 "Metric not found", r.2)
  | some v => (.ok 200 v, r.2)

/-- The `DELETE /api/metrics/:id`. -/
def deleteMetricRoute (s : String) (st : St) : ApiResp Unit × St :=
  let r := match parseIntJs s with
    | some k => MemStorage.deleteMetric k st
    | none => (false, st)
  if r.1 then (.ok 204 (), r.2) else (.err 404 "Metric not found", r.2)

/- ============ Map lemmas ============ -/

@[simp] theorem Table.keys_def {α : Type} (t : Table α) :
    t.keys = t.entries.map Prod.fst := rfl

@[simp] theorem Table.values_def {α : Type} (t : Table α) :
    t.values = t.entries.map Prod.snd := rfl

theorem mapGet_eq_none_iff {α : Type} (k : Int) (l : List (Int × α)) :
    mapGet k l = none ↔ k ∉ l.map Prod.fst := by
  induction l with
  | nil => simp [mapGet]
  | cons hd tl ih =>
    obtain ⟨k', v⟩ := hd
    by_cases h : k' = k
    · subst h
      simp [mapGet]
    · simp [mapGet, h, ih, Ne.symm h]

theorem mapGet_mem {α : Type} {k : Int} {v : α} {l : List (Int × α)}
    (h : mapGet k l = some v) : k ∈ l.map Prod.fst := by
  induction l with
  | nil => simp [mapGet] at h
  | cons hd tl ih =>
    obtain ⟨k', v'⟩ := hd
    by_cases hk : k' = k
    · simp [hk]
    · simp only [mapGet, if_neg hk] at h
      simpa using Or.inr (ih h)

theorem mapGet_mapSet_self {α : Type} (k : Int) (v : α) (l : List (Int × α)) :
    mapGet k (mapSet k v l) = some v := by
  induction l with
  | nil => simp [mapGet, mapSet]
  | cons hd tl ih =>
    obtain ⟨k', v'⟩ := hd
    by_cases h : k' = k <;> simp [mapGet, mapSet, h, ih]

theorem mapGet_mapSet_ne {α : Type} {k k' : Int} (v : α) (l : List (Int × α))
    (h : k ≠ k') : mapGet k' (mapSet k v l) = mapGet k' l := by
  induction l with
  | nil => simp [mapGet, mapSet, h]
  | cons hd tl ih =>
    obtain ⟨a, b⟩ := hd
    by_cases h2 : a = k
    · subst h2
      simp [mapGet, mapSet, h]
    · by_cases h3 : a = k'
      · subst h3
        simp [mapGet, mapSet, h2]
      · simp [mapGet, mapSet, h2, h3, ih]

theorem keys_mapSet {α : Type} (k : Int) (v : α) (l : List (Int × α)) :
    (mapSet k v l).map Prod.fst =
      if k ∈ l.map Prod.fst then l.map Prod.fst else l.map Prod.fst ++ [k] := by
  induction l with
  | nil => simp [mapSet]
  | cons hd tl ih =>
    obtain ⟨k', v'⟩ := hd
    by_cases h : k' = k
    · simp [mapSet, h]
    · simp only [mapSet, if_neg h, List.map_cons, ih]
      by_cases hm : k ∈ tl.map Prod.fst <;>
        simp [hm, Ne.symm h]

theorem keys_mapDelete_sublist {α : Type} (k : Int) (l : List (Int × α)) :
    ((mapDelete k l).2.map Prod.fst).Sublist (l.map Prod.fst) := by
  induction l with
  | nil => simp [mapDelete]
  | cons hd tl ih =>
    obtain ⟨k', v'⟩ := hd
    by_cases h : k' = k
    · simp only [mapDelete, if_pos h]
      exact List.sublist_cons_self k' (tl.map Prod.fst)
    · simpa [mapDelete, h] using ih.cons₂ k'

theorem mapDelete_not_mem {α : Type} {k : Int} {l : List (Int × α)}
    (h : k ∉ l.map Prod.fst) : mapDelete k l = (false, l) := by
  induction l with
  | nil => simp [mapDelete]
  | cons hd tl ih =>
    obtain ⟨k', v'⟩ := hd
    simp only [List.map_cons, List.mem_cons, not_or] at h
    have hne : ¬ k' = k := fun e => h.1 e.symm
    simp [mapDelete, hne, ih h.2]

theorem mapDelete_fst_true {α : Type} {k : Int} {l : List (Int × α)}
    (h : k ∈ l.map Prod.fst) : (mapDelete k l).1 = true := by
  induction l with
  | nil => simp at h
  | cons hd tl ih =>
    obtain ⟨k', v'⟩ := hd
    by_cases hk : k' = k
    · simp [mapDelete, hk]
    · simp only [List.map_cons, List.mem_cons] at h
      rcases h with h | h
      · exact absurd h.symm hk
      · simp [mapDelete, hk, ih h]

/- ============ Generic collection operations (for the id invariants) ===== -/

/-- One abstract operation on a single entity collection, covering every
`MemStorage` mutator: `create` builds the record from the assigned id and
increments the counter, `update` rewrites the record stored at an existing
id, `delete` removes an id.  Each concrete `MemStorage` method is an
instance of one of these (see the id-invariant theorem below). -/
inductive TOp (α : Type) where
  | create (build : Int → α)
  | update (id : Int) (f : α → α)
  | delete (id : Int)

/-- Apply one operation, exactly as `MemStorage` does: `create` stores
`build id` under `id = nextId++`; `update` merges at an existing key and
stores back under the same key; `delete` removes the key. -/
def Table.applyOp {α : Type} : TOp α → Table α → Table α
  | .create build, t => ⟨t.nextId + 1, mapSet t.nextId (build t.nextId) t.entries⟩
  | .update id f, t =>
    match mapGet id t.entries with
    | none => t
    | some v => ⟨t.nextId, mapSet id (f v) t.entries⟩
  | .delete id, t => ⟨t.nextId, (mapDelete id t.entries).2⟩

/-- Run a sequence of operations left to right. -/
def Table.runOps {α : Type} : List (TOp α) → Table α → Table α
  | [], t => t
  | op :: ops, t => Table.runOps ops (t.applyOp op)

/-- The ids assigned by the `create` operations of a run, in order. -/
def createdIds {α : Type} : List (TOp α) → Table α → List Int
  | [], _ => []
  | .create b :: ops, t => t.nextId :: createdIds ops (t.applyOp (.create b))
  | .update id f :: ops, t => createdIds ops (t.applyOp (.update id f))
  | .delete id :: ops, t => createdIds ops (t.applyOp (.delete id))

/-- The number of `create` operations in a sequence. -/
def numCreates {α : Type} : List (TOp α) → Nat
  | [] => 0
  | .create _ :: ops => numCreates ops + 1
  | .update _ _ :: ops => numCreates ops
  | .delete _ :: ops => numCreates ops

/-- The `n` consecutive integers starting at `s`. -/
def idsFrom (s : Int) : Nat → List Int
  | 0 => []
  | n + 1 => s :: idsFrom (s + 1) n

/-- The id-counter invariant of every `MemStorage` collection: the counter
is at least 1, every stored key is a positive integer below the counter,
and keys are distinct. -/
def TableInv {α : Type} (t : Table α) : Prop :=
  1 ≤ t.nextId ∧ (∀ k ∈ t.entries.map Prod.fst, 1 ≤ k ∧ k < t.nextId) ∧
    (t.entries.map Prod.fst).Nodup

theorem tableInv_empty {α : Type} : TableInv (Table.empty : Table α) := by
  simp [TableInv, Table.empty]

theorem tableInv_applyOp {α : Type} {t : Table α} (h : TableInv t)
    (op : TOp α) : TableInv (t.applyOp op) := by
  obtain ⟨h1, h2, h3⟩ := h
  cases op with
  | create build =>
    have hnot : t.nextId ∉ t.entries.map Prod.fst := by
      intro hm
      exact absurd (h2 _ hm).2 (lt_irrefl _)
    simp only [Table.applyOp, TableInv, keys_mapSet, if_neg hnot]
    refine ⟨by omega, ?_, ?_⟩
    · intro k hk
      rcases List.mem_append.mp hk with hk | hk
      · have := h2 k hk
        omega
      · simp only [List.mem_singleton] at hk
        omega
    · refine h3.append (List.nodup_singleton _) ?_
      intro a ha hb
      simp only [List.mem_singleton] at hb
      subst hb
      exact hnot ha
  | update id f =>
    cases hg : mapGet id t.entries with
    | none => simpa [Table.applyOp, hg] using ⟨h1, h2, h3⟩
    | some v =>
      have hmem : id ∈ t.entries.map Prod.fst := mapGet_mem hg
      simp only [Table.applyOp, hg, TableInv, keys_mapSet, if_pos hmem]
      exact ⟨h1, h2, h3⟩
  | delete id =>
    have hsub := keys_mapDelete_sublist id t.entries
    simp only [Table.applyOp, TableInv]
    exact ⟨h1, fun k hk => h2 k (hsub.subset hk), h3.sublist hsub⟩

theorem tableInv_runOps {α : Type} {t : Table α} (h : TableInv t)
    (ops : List (TOp α)) : TableInv (t.runOps ops) := by
  induction ops generalizing t with
  | nil => exact h
  | cons op ops ih => exact ih (tableInv_applyOp h op)

theorem nextId_applyOp {α : Type} (t : Table α) (op : TOp α) :
    t.nextId ≤ (t.applyOp op).nextId := by
  cases op with
  | create build =>
    simp only [Table.applyOp]
    omega
  | update id f =>
    cases hg : mapGet id t.entries <;> simp [Table.applyOp, hg]
  | delete id => simp [Table.applyOp]

theorem nextId_runOps {α : Type} (ops : List (TOp α)) (t : Table α) :
    (t.runOps ops).nextId = t.nextId + numCreates ops := by
  induction ops generalizing t with
  | nil => simp [Table.runOps, numCreates]
  | cons op ops ih =>
    cases op with
    | create build =>
      simp only [Table.runOps, ih, Table.applyOp, numCreates]
      push_cast
      ring
    | update id f =>
      cases hg : mapGet id t.entries <;>
        simp [Table.runOps, ih, Table.applyOp, hg, numCreates]
    | delete id => simp [Table.runOps, ih, Table.applyOp, numCreates]

theorem idsFrom_succ (s : Int) (n : Nat) :
    idsFrom s (n + 1) = s :: idsFrom (s + 1) n := rfl

theorem createdIds_eq {α : Type} (ops : List (TOp α)) (t : Table α) :
    createdIds ops t = idsFrom t.nextId (numCreates ops) := by
  induction ops generalizing t with
  | nil => simp [createdIds, numCreates, idsFrom]
  | cons op ops ih =>
    cases op with
    | create build =>
      simp only [createdIds, numCreates, ih, Table.applyOp, idsFrom_succ]
    | update id f =>
      cases hg : mapGet id t.entries <;>
        simp [createdIds, numCreates, ih, Table.applyOp, hg]
    | delete id => simp [createdIds, numCreates, ih, Table.applyOp]

theorem mem_idsFrom {s i : Int} {n : Nat} (h : i ∈ idsFrom s n) :
    s ≤ i ∧ i < s + n := by
  induction n generalizing s with
  | zero => simp [idsFrom] at h
  | succ n ih =>
    rcases List.mem_cons.mp h with h | h
    · subst h
      omega
    · have := ih h
      push_cast
      omega

theorem idsFrom_sorted (s : Int) (n : Nat) :
    (idsFrom s n).Pairwise (· < ·) := by
  induction n generalizing s with
  | zero => simp [idsFrom]
  | succ n ih =>
    refine List.Pairwise.cons ?_ (ih (s + 1))
    intro x hx
    have := mem_idsFrom hx
    omega


/- ============ Helper lemmas for the claim theorems ============ -/

theorem mapSet_self {α : Type} {k : Int} {v : α} {l : List (Int × α)}
    (h : mapGet k l = some v) : mapSet k v l = l := by
  induction l with
  | nil => simp [mapGet] at h
  | cons hd tl ih =>
    obtain ⟨a, b⟩ := hd
    by_cases hk : a = k
    · subst hk
      have hb : b = v := by simpa [mapGet] using h
      simp [mapSet, hb]
    · simp only [mapGet, if_neg hk] at h
      simp [mapSet, hk, ih h]

theorem runOps_append {α : Type} (ops₁ ops₂ : List (TOp α)) (t : Table α) :
    t.runOps (ops₁ ++ ops₂) = (t.runOps ops₁).runOps ops₂ := by
  induction ops₁ generalizing t with
  | nil => simp [Table.runOps]
  | cons op ops ih => simp [Table.runOps, ih]

theorem jsSlice0_subset {α : Type} (n : Int) (l : List α) :
    ∀ x ∈ jsSlice0 n l, x ∈ l := by
  intro x hx
  unfold jsSlice0 at hx
  split at hx <;> exact List.take_subset _ _ hx

theorem jsSlice0_pairwise {α : Type} {R : α → α → Prop} {l : List α}
    (h : l.Pairwise R) (n : Int) : (jsSlice0 n l).Pairwise R := by
  unfold jsSlice0
  split <;> exact h.sublist (List.take_sublist _ _)

theorem jsSlice0_length_le {α : Type} {n : Int} (hn : 0 ≤ n) (l : List α) :
    ((jsSlice0 n l).length : Int) ≤ n := by
  unfold jsSlice0
  rw [if_neg (by omega)]
  simp only [List.length_take]
  omega

theorem pairwise_mergeSort_of {α : Type} (le : α → α → Bool)
    (htrans : ∀ a b c, le a b = true → le b c = true → le a c = true)
    (htotal : ∀ a b, le a b || le b a) (l : List α) :
    (List.mergeSort l le).Pairwise (fun a b => le a b = true) :=
  List.sorted_mergeSort htrans htotal l

theorem head_mergeSortDesc_max {α : Type} (key : α → Nat) {l : List α} {m : α}
    (h : (List.mergeSort l (fun a b => decide (key b ≤ key a))).head? = some m) :
    m ∈ l ∧ ∀ x ∈ l, key x ≤ key m := by
  have hpw := pairwise_mergeSort_of (fun a b => decide (key b ≤ key a))
    (fun a b c hab hbc => by
      have h1 := of_decide_eq_true hab
      have h2 := of_decide_eq_true hbc
      exact decide_eq_true (le_trans h2 h1))
    (fun a b => by
      rcases Nat.le_total (key a) (key b) with hh | hh <;> simp [hh]) l
  cases hms : List.mergeSort l (fun a b => decide (key b ≤ key a)) with
  | nil => rw [hms] at h; simp at h
  | cons a rest =>
    rw [hms] at h hpw
    simp only [List.head?_cons, Option.some.injEq] at h
    rw [h] at hms hpw
    constructor
    · have ha : m ∈ List.mergeSort l (fun a b => decide (key b ≤ key a)) := by
        rw [hms]
        exact List.mem_cons_self _ _
      exact List.mem_mergeSort.mp ha
    · intro x hx
      have hx' : x ∈ List.mergeSort l (fun a b => decide (key b ≤ key a)) :=
        List.mem_mergeSort.mpr hx
      rw [hms] at hx'
      rcases List.mem_cons.mp hx' with hx' | hx'
      · subst hx'
        exact le_refl _
      · exact of_decide_eq_true ((List.pairwise_cons.mp hpw).1 x hx')

theorem filterMap_guard {α : Type} (p : α → Bool) (l : List α) :
    l.filterMap (fun c => if p c then some c else none) = l.filter p := by
  induction l with
  | nil => simp
  | cons a l ih => by_cases h : p a <;> simp [h, ih]

theorem jGet_cons_ne (v : JVal) (fields : List (String × JVal))
    {k' k : String} (h : ¬ k' = k) :
    jGet ((k', v) :: fields) k = jGet fields k := by
  simp [jGet, h]

/- ============ Concrete fixtures used by witnesses/counterexamples ====== -/

/-- The request body of the spec scenario
`{type:"plant", name:"Oak Saplings", quantity:-5, unit:"units", status:"available"}`. -/
def oakBody : JVal :=
  .obj [("type", .str "plant"), ("name", .str "Oak Saplings"),
        ("quantity", .num (-5)), ("unit", .str "units"),
        ("status", .str "available")]

/-- The validated insert object the Oak Saplings payload parses to. -/
def oakInsert : InsertInventory := ⟨"plant", "Oak Saplings", -5, "units", "available"⟩

/-- A pending task scheduled at time `sched`. -/
def upTask (id : Int) (sched : Nat) : Task :=
  ⟨id, "Inspection", none, "North", some "normal", some "pending", "routine",
   none, sched, false, none⟩

/-- A storage state holding exactly one pending task (id 1, scheduled at 100). -/
def stOneTask : St :=
  { St.empty with tasks := ⟨2, [(1, upTask 1 100)]⟩ }

/- ============ Claim theorems ============ -/

/-- C1 (counterexample): contrary to the claim, POST `/api/inventory` with
`{type:"plant", name:"Oak Saplings", quantity:-5, unit:"units",
status:"available"}` does not respond 400 — on the seeded store it responds
201, because `insertInventorySchema` accepts any numeric quantity. -/
theorem C1_counterexample :
    (postInventoryRoute oakBody 0 (seedStore 0)).1.statusCode = 201 ∧
    (201 : Nat) ≠ 400 :=
  ⟨rfl, by decide⟩

/-- C1 (amended): POST `/api/inventory` with the Oak Saplings payload
(quantity −5) passes validation — the insert schema constrains only the
presence and primitive types of `type`, `name`, `quantity`, `unit`,
`status`, with no non-negativity constraint — so the handler responds 201,
stores the item with quantity −5 under the next id with `lastUpdated = now`,
and a subsequent get returns it. -/
theorem C1_amended : ∀ (st : St) (now : Nat),
    parseInsertInventory oakBody = some oakInsert ∧
    postInventoryRoute oakBody now st =
      (ApiResp.ok 201
        ⟨st.inventoryItems.nextId, "plant", "Oak Saplings", -5, "units",
         "available", now⟩,
       { st with inventoryItems :=
           ⟨st.inventoryItems.nextId + 1,
            mapSet st.inventoryItems.nextId
              ⟨st.inventoryItems.nextId, "plant", "Oak Saplings", -5, "units",
               "available", now⟩ st.inventoryItems.entries⟩ }) ∧
    MemStorage.getInventoryItem st.inventoryItems.nextId
        (postInventoryRoute oakBody now st).2 =
      some ⟨st.inventoryItems.nextId, "plant", "Oak Saplings", -5, "units",
            "available", now⟩ := by
  intro st now
  refine ⟨rfl, rfl, ?_⟩
  exact mapGet_mapSet_self _ _ _

/-- C3 (counterexample): `getUpcomingTasks` does not return "at most
`limit`" tasks for every limit: with one upcoming task and `limit = -1`
(reachable via `GET /api/tasks?limit=-1`, since `-1` is truthy), JS
`slice(0, -1)` yields 0 tasks, and `0 ≤ -1` is false. -/
theorem C3_counterexample :
    ((MemStorage.getUpcomingTasks 0 (-1) stOneTask).length : Int) = 0 ∧
    ¬ (((MemStorage.getUpcomingTasks 0 (-1) stOneTask).length : Int) ≤ -1) := by
  constructor
  · simp [MemStorage.getUpcomingTasks, stOneTask, upTask, St.empty,
      jsSlice0, List.filter]
  · intro h
    have h0 : (0 : Int) ≤ ((MemStorage.getUpcomingTasks 0 (-1) stOneTask).length : Int) :=
      Int.natCast_nonneg _
    omega

/-- C3 (amended): for every store, current time and limit,
`getUpcomingTasks(limit)` returns only tasks of the store with
`completed = false` and `scheduledDate` strictly after the current time,
sorted ascending by `scheduledDate`; and whenever `limit` is nonnegative it
returns at most `limit` tasks. -/
theorem C3_amended : ∀ (st : St) (now : Nat) (limit : Int),
    (∀ t ∈ MemStorage.getUpcomingTasks now limit st,
      t ∈ st.tasks.values ∧ t.completed = false ∧ now < t.scheduledDate) ∧
    (0 ≤ limit →
      ((MemStorage.getUpcomingTasks now limit st).length : Int) ≤ limit) ∧
    (MemStorage.getUpcomingTasks now limit st).Pairwise
      (fun a b => a.scheduledDate ≤ b.scheduledDate) := by
  intro st now limit
  refine ⟨?_, ?_, ?_⟩
  · intro t ht
    simp only [MemStorage.getUpcomingTasks] at ht
    have h1 := jsSlice0_subset _ _ _ ht
    have h2 := List.mem_mergeSort.mp h1
    have h3 := List.mem_filter.mp h2
    have h4 := h3.2
    simp only [Bool.and_eq_true, Bool.not_eq_true', decide_eq_true_eq] at h4
    exact ⟨h3.1, h4.1, h4.2⟩
  · intro hl
    simp only [MemStorage.getUpcomingTasks]
    exact jsSlice0_length_le hl _
  · simp only [MemStorage.getUpcomingTasks]
    apply jsSlice0_pairwise
    have hp := pairwise_mergeSort_of
      (fun a b => decide (a.scheduledDate ≤ b.scheduledDate))
      (fun a b c hab hbc => decide_eq_true
        (Nat.le_trans (of_decide_eq_true hab) (of_decide_eq_true hbc)))
      (fun a b => by
        rcases Nat.le_total a.scheduledDate b.scheduledDate with h | h <;> simp [h])
      ((st.tasks.values).filter
        (fun t => !t.completed && decide (now < t.scheduledDate)))
    exact hp.imp (fun h => of_decide_eq_true h)

/-- C3 (amended, witness): at the one-task store with `now = 0` and
`limit = 5`, the hypothesis `0 ≤ 5` holds and the bound follows. -/
theorem C3_amended_witness :
    ((MemStorage.getUpcomingTasks 0 5 stOneTask).length : Int) ≤ 5 :=
  (C3_amended stOneTask 0 5).2.1 (by decide)

/-- C10: `GET /api/locations` treats a `regionId` query value parsing to
`NaN` or `0` as if no filter were given, returning the full location list,
because the handler gates on the truthiness of the parsed number; a nonzero
parsed value selects the `regionId` equality filter. -/
theorem C10_region_filter_truthiness : ∀ (s : String) (st : St),
    (parseIntJs s = none →
      getLocationsRoute (some s) st = MemStorage.getLocations st) ∧
    (parseIntJs s = some 0 →
      getLocationsRoute (some s) st = MemStorage.getLocations st) ∧
    (∀ k : Int, parseIntJs s = some k → k ≠ 0 →
      getLocationsRoute (some s) st =
        MemStorage.getLocationsByRegion (k : Rat) st) ∧
    MemStorage.getLocationsByRegion 0 st =
      (st.locations.values).filter (fun l => l.regionId == (0 : Rat)) := by
  intro s st
  have hne : ∀ k : Int, parseIntJs s = some k → ¬ s = "" := by
    intro k hk he
    rw [he] at hk
    exact Option.noConfusion hk
  refine ⟨?_, ?_, ?_, rfl⟩
  · intro h
    by_cases he : s = ""
    · simp [getLocationsRoute, he]
    · simp [getLocationsRoute, he, h]
  · intro h
    simp [getLocationsRoute, hne 0 h, h]
  · intro k hk hk0
    simp [getLocationsRoute, hne k hk, hk, hk0]

/-- C10 (witness): `regionId=0` on the seeded store returns the full
3-location list, not the empty regionId-0 filter. -/
theorem C10_witness :
    getLocationsRoute (some "0") (seedStore 3) =
      MemStorage.getLocations (seedStore 3) :=
  (C10_region_filter_truthiness "0" (seedStore 3)).2.1 rfl

/-- Auxiliary for C4: per fixed category, the head of the
descending-by-timestamp sort of the metrics of that category is labelled with
that category, and is absent exactly when the category has no records. -/
theorem latestCat_eq (st : St) (c : String) :
    ((((st.metrics.values).filter (fun m => m.category == c)).mergeSort
        (fun a b => decide (b.timestamp ≤ a.timestamp))).head?).map
      (fun m => m.category) =
      if !((st.metrics.values).filter (fun m => m.category == c)).isEmpty
      then some c else none := by
  cases h : (((st.metrics.values).filter (fun m => m.category == c)).mergeSort
      (fun a b => decide (b.timestamp ≤ a.timestamp))).head? with
  | none =>
    have hnil := List.head?_eq_none_iff.mp h
    have hlen := congrArg List.length hnil
    rw [List.length_mergeSort] at hlen
    have hl0 := List.eq_nil_of_length_eq_zero hlen
    simp only [Table.values_def] at hl0 ⊢
    simp [hl0]
  | some m =>
    have hm := head_mergeSortDesc_max (fun m : Metric => m.timestamp) h
    have hne := List.ne_nil_of_mem hm.1
    have hcat : m.category = c := by
      have := (List.mem_filter.mp hm.1).2
      simpa using this
    simp only [Table.values_def] at hne ⊢
    simp [hne, hcat]

/-- C4: `getLatestMetrics` lists, in the order of the fixed category list
{coverage, species, risk, health}, exactly the non-empty categories; so at
most one metric per fixed category appears, categories outside the list
never appear, empty categories are omitted, and each returned metric is a
stored metric whose timestamp is maximal among the records of its category. -/
theorem C4_latest_metrics : ∀ st : St,
    ((MemStorage.getLatestMetrics st).map (fun m => m.category) =
      MemStorage.metricCategories.filter
        (fun c => !((st.metrics.values).filter (fun m => m.category == c)).isEmpty)) ∧
    ((MemStorage.getLatestMetrics st).map (fun m => m.category)).Nodup ∧
    (∀ m ∈ MemStorage.getLatestMetrics st,
      m ∈ st.metrics.values ∧ m.category ∈ MemStorage.metricCategories ∧
      ∀ m' ∈ st.metrics.values, m'.category = m.category →
        m'.timestamp ≤ m.timestamp) := by
  intro st
  have hmap : (MemStorage.getLatestMetrics st).map (fun m => m.category) =
      MemStorage.metricCategories.filter
        (fun c => !((st.metrics.values).filter (fun m => m.category == c)).isEmpty) := by
    simp only [MemStorage.getLatestMetrics]
    rw [List.map_filterMap]
    rw [List.filterMap_congr (fun c _ => latestCat_eq st c)]
    exact filterMap_guard _ _
  refine ⟨hmap, ?_, ?_⟩
  · rw [hmap]
    exact List.Nodup.filter _ (by decide)
  · intro m hm
    simp only [MemStorage.getLatestMetrics] at hm
    obtain ⟨c, hc, hfc⟩ := List.mem_filterMap.mp hm
    have hmx := head_mergeSortDesc_max (fun m : Metric => m.timestamp) hfc
    have hmem := List.mem_filter.mp hmx.1
    have hcat : m.category = c := by simpa using hmem.2
    refine ⟨hmem.1, hcat ▸ hc, ?_⟩
    intro m' hm' hcat'
    exact hmx.2 m' (List.mem_filter.mpr ⟨hm', by simp [hcat', hcat]⟩)

/-- A single stored health metric, for the C4 witness. -/
def healthMetric : Metric :=
  ⟨1, "Health Index", 80, "%", none, none, none, none, "health", 10⟩

/-- A storage state holding exactly one metric (category "health"). -/
def stOneMetric : St :=
  { St.empty with metrics := ⟨2, [(1, healthMetric)]⟩ }

/-- C4 (witness): on a store with a single health metric, that metric is
returned by `getLatestMetrics` and its category is one of the fixed four. -/
theorem C4_witness :
    healthMetric ∈ MemStorage.getLatestMetrics stOneMetric ∧
    healthMetric.category ∈ MemStorage.metricCategories := by
  have hmem : healthMetric ∈ MemStorage.getLatestMetrics stOneMetric := by
    simp only [MemStorage.getLatestMetrics]
    refine List.mem_filterMap.mpr
      ⟨"health", by simp [MemStorage.metricCategories], ?_⟩
    simp [stOneMetric, St.empty, healthMetric]
  exact ⟨hmem, ((C4_latest_metrics stOneMetric).2.2 healthMetric hmem).2.1⟩

/-- C5: for every task id, `completeTask` on an absent id returns "not
found" and leaves the store unchanged (and `PUT /api/tasks/:id/complete`
answers 404 with error "Task not found"); on a present task — already
completed or not — it stores and returns the task with `completed = true`,
`status = "completed"` and `completedAt` overwritten to the current time. -/
theorem C5_complete_task : ∀ (id : Int) (now : Nat) (st : St),
    (MemStorage.getTask id st = none →
      MemStorage.completeTask id now st = (none, st) ∧
      ∀ s, parseIntJs s = some id →
        completeTaskRoute s now st = (ApiResp.err 404 "Task not found", st)) ∧
    (∀ t, MemStorage.getTask id st = some t →
      MemStorage.completeTask id now st =
        (some { t with
                completed := true,
                status := some "completed",
                completedAt := some now },
         { st with tasks := ⟨st.tasks.nextId,
             mapSet id
               { t with
                 completed := true,
                 status := some "completed",
                 completedAt := some now } st.tasks.entries⟩ }) ∧
      MemStorage.getTask id (MemStorage.completeTask id now st).2 =
        some { t with
               completed := true,
               status := some "completed",
               completedAt := some now }) := by
  intro id now st
  constructor
  · intro h
    have h' : mapGet id st.tasks.entries = none := h
    have hc : MemStorage.completeTask id now st = (none, st) := by
      simp [MemStorage.completeTask, h']
    refine ⟨hc, ?_⟩
    intro s hs
    simp [completeTaskRoute, hs, hc]
  · intro t h
    have h' : mapGet id st.tasks.entries = some t := h
    refine ⟨?_, ?_⟩
    · simp [MemStorage.completeTask, h']
    · simp [MemStorage.completeTask, MemStorage.getTask, h', mapGet_mapSet_self]

/-- C5 (witness): completing the stored pending task at id 1 at time 7
yields it completed with `completedAt = 7`. -/
theorem C5_witness :
    (MemStorage.completeTask 1 7 stOneTask).1 =
      some { upTask 1 100 with
             completed := true,
             status := some "completed",
             completedAt := some 7 } := by
  have h := ((C5_complete_task 1 7 stOneTask).2 (upTask 1 100) rfl).1
  rw [h]

theorem numCreates_append {α : Type} (ops₁ ops₂ : List (TOp α)) :
    numCreates (ops₁ ++ ops₂) = numCreates ops₁ + numCreates ops₂ := by
  induction ops₁ with
  | nil => simp [numCreates]
  | cons op ops ih =>
    cases op with
    | create b =>
      simp [numCreates, ih]
      omega
    | update id f => simp [numCreates, ih]
    | delete id => simp [numCreates, ih]

/-- C2: for every entity collection satisfying the counter invariant
(which the empty and the seeded stores do) and every sequence of
create/update/delete operations, the ids assigned by the creates are the
consecutive integers starting at the current counter — hence strictly
increasing, positive, strictly above every id present before the run —
the collection keys stay distinct positive integers below the counter,
and an id deleted during the run is never assigned by a later create.
`createUser`/`deleteUser` (and their six per-entity siblings, which are
word-for-word identical) are instances of these collection operations. -/
theorem C2_id_invariants :
    (∀ {α : Type} (t : Table α) (ops : List (TOp α)), TableInv t →
      createdIds ops t = idsFrom t.nextId (numCreates ops) ∧
      (createdIds ops t).Pairwise (· < ·) ∧
      (∀ i ∈ createdIds ops t, 1 ≤ i) ∧
      (∀ k ∈ t.entries.map Prod.fst, ∀ i ∈ createdIds ops t, k < i) ∧
      TableInv (t.runOps ops) ∧
      (t.runOps ops).nextId = t.nextId + numCreates ops ∧
      (∀ (ops₁ : List (TOp α)) (d : Int) (ops₂ : List (TOp α)),
        ops = ops₁ ++ TOp.delete d :: ops₂ →
        d ∈ (t.runOps ops₁).entries.map Prod.fst →
        d ∉ createdIds ops₂ (t.runOps (ops₁ ++ [TOp.delete d])))) ∧
    (∀ (u : InsertUser) (st : St),
      (MemStorage.createUser u st).2.users =
        st.users.applyOp (.create (fun id =>
          ⟨id, u.username, u.password, u.fullName, u.email, u.role,
           u.profileImage⟩))) ∧
    (∀ (id : Int) (st : St),
      (MemStorage.deleteUser id st).2.users =
        st.users.applyOp (.delete id)) ∧
    (Table.empty : Table User).nextId = 1 ∧
    (seedStore 0).users.nextId = 4 ∧
    TableInv (seedStore 0).users := by
  refine ⟨?_, fun u st => rfl, fun id st => rfl, rfl, rfl,
    ⟨by decide, by decide, by decide⟩⟩
  intro α t ops h
  refine ⟨createdIds_eq ops t, ?_, ?_, ?_, tableInv_runOps h ops,
    nextId_runOps ops t, ?_⟩
  · rw [createdIds_eq]
    exact idsFrom_sorted _ _
  · intro i hi
    rw [createdIds_eq] at hi
    have := (mem_idsFrom hi).1
    have h1 := h.1
    omega
  · intro k hk i hi
    rw [createdIds_eq] at hi
    have h2 := (h.2.1 k hk).2
    have := (mem_idsFrom hi).1
    omega
  · intro ops₁ d ops₂ hops hd hmem
    have inv₁ := tableInv_runOps h ops₁
    have hdlt : d < (t.runOps ops₁).nextId := (inv₁.2.1 d hd).2
    rw [createdIds_eq] at hmem
    have hge := (mem_idsFrom hmem).1
    have hnext : (t.runOps (ops₁ ++ [TOp.delete d])).nextId =
        (t.runOps ops₁).nextId := by
      rw [nextId_runOps, nextId_runOps, numCreates_append]
      simp [numCreates]
    omega

/-- Operation sequence for the C2 witness: create, create, delete id 1,
create. -/
def opsW : List (TOp Nat) :=
  [.create (fun i => i.toNat), .create (fun i => i.toNat + 10),
   .delete 1, .create (fun _ => 0)]

/-- C2 (witness): on an empty collection, the creates of
create–create–delete(1)–create are assigned ids 1, 2, 3 — the deleted id 1
is not reassigned. -/
theorem C2_witness :
    createdIds opsW (Table.empty : Table Nat) = [1, 2, 3] := by
  have h := (C2_id_invariants.1 (Table.empty : Table Nat) opsW tableInv_empty).1
  rw [h]
  rfl

/-- C6: a task's `completed`/`completedAt` can change only through the
dedicated complete operation: `createTask` initialises `completed = false`,
`completedAt = null`; `updateTask` preserves both fields of the stored
task; and the insert/partial schemas never read a `completed` or
`completedAt` body key, so POST and PUT task bodies carrying them behave
exactly like bodies without them. -/
theorem C6_completed_protected :
    (∀ (p : InsertTask) (st : St),
      (MemStorage.createTask p st).1.completed = false ∧
      (MemStorage.createTask p st).1.completedAt = none) ∧
    (∀ (id : Int) (p : TaskPatch) (st : St) (t' : Task),
      (MemStorage.updateTask id p st).1 = some t' →
      ∃ t, MemStorage.getTask id st = some t ∧
        t'.completed = t.completed ∧ t'.completedAt = t.completedAt) ∧
    (∀ (v : JVal) (fields : List (String × JVal)),
      parseInsertTask (.obj (("completed", v) :: fields)) =
        parseInsertTask (.obj fields) ∧
      parseInsertTask (.obj (("completedAt", v) :: fields)) =
        parseInsertTask (.obj fields) ∧
      parseTaskPatch (.obj (("completed", v) :: fields)) =
        parseTaskPatch (.obj fields) ∧
      parseTaskPatch (.obj (("completedAt", v) :: fields)) =
        parseTaskPatch (.obj fields)) ∧
    (∀ (v : JVal) (fields : List (String × JVal)) (st : St),
      postTaskRoute (.obj (("completed", v) :: fields)) st =
        postTaskRoute (.obj fields) st ∧
      postTaskRoute (.obj (("completedAt", v) :: fields)) st =
        postTaskRoute (.obj fields) st ∧
      ∀ s, putTaskBodyRoute s (.obj (("completed", v) :: fields)) st =
        putTaskBodyRoute s (.obj fields) st) := by
  have hparse : ∀ (v : JVal) (fields : List (String × JVal)),
      parseInsertTask (.obj (("completed", v) :: fields)) =
        parseInsertTask (.obj fields) ∧
      parseInsertTask (.obj (("completedAt", v) :: fields)) =
        parseInsertTask (.obj fields) ∧
      parseTaskPatch (.obj (("completed", v) :: fields)) =
        parseTaskPatch (.obj fields) ∧
      parseTaskPatch (.obj (("completedAt", v) :: fields)) =
        parseTaskPatch (.obj fields) := by
    intro v fields
    refine ⟨?_, ?_, ?_, ?_⟩
    all_goals simp [parseInsertTask, parseTaskPatch, jGet]
  refine ⟨fun p st => ⟨rfl, rfl⟩, ?_, hparse, ?_⟩
  · intro id p st t' h
    cases hg : mapGet id st.tasks.entries with
    | none => simp [MemStorage.updateTask, hg] at h
    | some t =>
      simp only [MemStorage.updateTask, hg, Option.some.injEq] at h
      exact ⟨t, hg, by rw [← h], by rw [← h]⟩
  · intro v fields st
    refine ⟨?_, ?_, ?_⟩
    · simp only [postTaskRoute, (hparse v fields).1]
    · simp only [postTaskRoute, (hparse v fields).2.1]
    · intro s
      simp only [putTaskBodyRoute, (hparse v fields).2.2.1]

/-- C6 (witness): updating the stored pending task with a patch that only
changes the title leaves `completed`/`completedAt` at their stored values. -/
theorem C6_witness :
    ∃ t, MemStorage.getTask 1 stOneTask = some t ∧
      (Option.getD (MemStorage.updateTask 1 { title := some "New" } stOneTask).1
        (upTask 1 100)).completed = t.completed ∧
      (Option.getD (MemStorage.updateTask 1 { title := some "New" } stOneTask).1
        (upTask 1 100)).completedAt = t.completedAt := by
  obtain ⟨t, h1, h2, h3⟩ := C6_completed_protected.2.1 1 { title := some "New" }
    stOneTask ((MemStorage.updateTask 1 { title := some "New" } stOneTask).1.getD
      (upTask 1 100)) rfl
  exact ⟨t, h1, h2, h3⟩

/-- C7: for every entity and every valid insert payload, `create` returns
(and `get` at the returned id then yields) exactly the payload merged with
the server-assigned fields: the next id, plus `lastUpdated`/`timestamp`
set to the current time and `completed = false`, `completedAt = null`
where those fields exist; the insert shapes carry no server-assigned
field, so no client value for one can reach the record. -/
theorem C7_create_then_get :
    (∀ (p : InsertUser) (st : St),
      (MemStorage.createUser p st).1 =
        ⟨st.users.nextId, p.username, p.password, p.fullName, p.email,
         p.role, p.profileImage⟩ ∧
      MemStorage.getUser (MemStorage.createUser p st).1.id
          (MemStorage.createUser p st).2 =
        some ⟨st.users.nextId, p.username, p.password, p.fullName, p.email,
              p.role, p.profileImage⟩) ∧
    (∀ (p : InsertRegion) (st : St),
      (MemStorage.createRegion p st).1 =
        ⟨st.regions.nextId, p.name, p.description, p.coordinates⟩ ∧
      MemStorage.getRegion (MemStorage.createRegion p st).1.id
          (MemStorage.createRegion p st).2 =
        some ⟨st.regions.nextId, p.name, p.description, p.coordinates⟩) ∧
    (∀ (p : InsertLocation) (now : Nat) (st : St),
      (MemStorage.createLocation p now st).1 =
        ⟨st.locations.nextId, p.regionId, p.name, p.status, p.coordinates,
         now⟩ ∧
      MemStorage.getLocation (MemStorage.createLocation p now st).1.id
          (MemStorage.createLocation p now st).2 =
        some ⟨st.locations.nextId, p.regionId, p.name, p.status,
              p.coordinates, now⟩) ∧
    (∀ (p : InsertInventory) (now : Nat) (st : St),
      (MemStorage.createInventoryItem p now st).1 =
        ⟨st.inventoryItems.nextId, p.type, p.name, p.quantity, p.unit,
         p.status, now⟩ ∧
      MemStorage.getInventoryItem (MemStorage.createInventoryItem p now st).1.id
          (MemStorage.createInventoryItem p now st).2 =
        some ⟨st.inventoryItems.nextId, p.type, p.name, p.quantity, p.unit,
              p.status, now⟩) ∧
    (∀ (p : InsertActivity) (now : Nat) (st : St),
      (MemStorage.createActivity p now st).1 =
        ⟨st.activities.nextId, p.userId, p.type, p.description, p.location,
         p.team, now, p.coordinates⟩ ∧
      MemStorage.getActivity (MemStorage.createActivity p now st).1.id
          (MemStorage.createActivity p now st).2 =
        some ⟨st.activities.nextId, p.userId, p.type, p.description,
              p.location, p.team, now, p.coordinates⟩) ∧
    (∀ (p : InsertTask) (st : St),
      (MemStorage.createTask p st).1 =
        ⟨st.tasks.nextId, p.title, p.description, p.location, p.priority,
         p.status, p.category, p.assignedTo, p.scheduledDate, false, none⟩ ∧
      MemStorage.getTask (MemStorage.createTask p st).1.id
          (MemStorage.createTask p st).2 =
        some ⟨st.tasks.nextId, p.title, p.description, p.location,
              p.priority, p.status, p.category, p.assignedTo,
              p.scheduledDate, false, none⟩) ∧
    (∀ (p : InsertMetric) (now : Nat) (st : St),
      (MemStorage.createMetric p now st).1 =
        ⟨st.metrics.nextId, p.name, p.value, p.unit, p.previousValue,
         p.changePercentage, p.trend, p.icon, p.category, now⟩ ∧
      MemStorage.getMetric (MemStorage.createMetric p now st).1.id
          (MemStorage.createMetric p now st).2 =
        some ⟨st.metrics.nextId, p.name, p.value, p.unit, p.previousValue,
              p.changePercentage, p.trend, p.icon, p.category, now⟩) :=
  ⟨fun _ _ => ⟨rfl, mapGet_mapSet_self _ _ _⟩,
   fun _ _ => ⟨rfl, mapGet_mapSet_self _ _ _⟩,
   fun _ _ _ => ⟨rfl, mapGet_mapSet_self _ _ _⟩,
   fun _ _ _ => ⟨rfl, mapGet_mapSet_self _ _ _⟩,
   fun _ _ _ => ⟨rfl, mapGet_mapSet_self _ _ _⟩,
   fun _ _ => ⟨rfl, mapGet_mapSet_self _ _ _⟩,
   fun _ _ _ => ⟨rfl, mapGet_mapSet_self _ _ _⟩⟩

/-- C8: for every entity and every stored id, `update(id, partial)` stores
and returns the shallow merge that takes exactly the patch's present fields
and keeps every omitted field (Location and Inventory additionally refresh
`lastUpdated`); in particular the empty patch returns the record unchanged
— bit-for-bit, store included, except the auto-refreshed `lastUpdated`. -/
theorem C8_merge_update :
    (∀ (id : Int) (p : UserPatch) (st : St) (u : User),
      MemStorage.getUser id st = some u →
      MemStorage.updateUser id p st =
        (some ⟨u.id, p.username.getD u.username, p.password.getD u.password,
               p.fullName.getD u.fullName, p.email.getD u.email,
               (match p.role with | some r => some r | none => u.role),
               p.profileImage.getD u.profileImage⟩,
         { st with users := ⟨st.users.nextId,
             mapSet id ⟨u.id, p.username.getD u.username,
               p.password.getD u.password, p.fullName.getD u.fullName,
               p.email.getD u.email,
               (match p.role with | some r => some r | none => u.role),
               p.profileImage.getD u.profileImage⟩ st.users.entries⟩ })) ∧
    (∀ (id : Int) (st : St) (u : User),
      MemStorage.getUser id st = some u →
      MemStorage.updateUser id {} st = (some u, st)) ∧
    (∀ (id : Int) (p : RegionPatch) (st : St) (r : Region),
      MemStorage.getRegion id st = some r →
      MemStorage.updateRegion id p st =
        (some ⟨r.id, p.name.getD r.name, p.description.getD r.description,
               p.coordinates.getD r.coordinates⟩,
         { st with regions := ⟨st.regions.nextId,
             mapSet id ⟨r.id, p.name.getD r.name,
               p.description.getD r.description,
               p.coordinates.getD r.coordinates⟩ st.regions.entries⟩ })) ∧
    (∀ (id : Int) (st : St) (r : Region),
      MemStorage.getRegion id st = some r →
      MemStorage.updateRegion id {} st = (some r, st)) ∧
    (∀ (id : Int) (p : LocationPatch) (now : Nat) (st : St) (l : Location),
      MemStorage.getLocation id st = some l →
      MemStorage.updateLocation id p now st =
        (some ⟨l.id, p.regionId.getD l.regionId, p.name.getD l.name,
               (match p.status with | some s => some s | none => l.status),
               p.coordinates.getD l.coordinates, now⟩,
         { st with locations := ⟨st.locations.nextId,
             mapSet id ⟨l.id, p.regionId.getD l.regionId, p.name.getD l.name,
               (match p.status with | some s => some s | none => l.status),
               p.coordinates.getD l.coordinates, now⟩ st.locations.entries⟩ })) ∧
    (∀ (id : Int) (now : Nat) (st : St) (l : Location),
      MemStorage.getLocation id st = some l →
      (MemStorage.updateLocation id {} now st).1 =
        some { l with lastUpdated := now }) ∧
    (∀ (id : Int) (p : InventoryPatch) (now : Nat) (st : St) (i : Inventory),
      MemStorage.getInventoryItem id st = some i →
      MemStorage.updateInventoryItem id p now st =
        (some ⟨i.id, p.type.getD i.type, p.name.getD i.name,
               p.quantity.getD i.quantity, p.unit.getD i.unit,
               p.status.getD i.status, now⟩,
         { st with inventoryItems := ⟨st.inventoryItems.nextId,
             mapSet id ⟨i.id, p.type.getD i.type, p.name.getD i.name,
               p.quantity.getD i.quantity, p.unit.getD i.unit,
               p.status.getD i.status, now⟩ st.inventoryItems.entries⟩ })) ∧
    (∀ (id : Int) (now : Nat) (st : St) (i : Inventory),
      MemStorage.getInventoryItem id st = some i →
      (MemStorage.updateInventoryItem id {} now st).1 =
        some { i with lastUpdated := now }) ∧
    (∀ (id : Int) (p : ActivityPatch) (st : St) (a : Activity),
      MemStorage.getActivity id st = some a →
      MemStorage.updateActivity id p st =
        (some ⟨a.id, p.userId.getD a.userId, p.type.getD a.type,
               p.description.getD a.description, p.location.getD a.location,
               p.team.getD a.team, a.timestamp,
               p.coordinates.getD a.coordinates⟩,
         { st with activities := ⟨st.activities.nextId,
             mapSet id ⟨a.id, p.userId.getD a.userId, p.type.getD a.type,
               p.description.getD a.description, p.location.getD a.location,
               p.team.getD a.team, a.timestamp,
               p.coordinates.getD a.coordinates⟩ st.activities.entries⟩ })) ∧
    (∀ (id : Int) (st : St) (a : Activity),
      MemStorage.getActivity id st = some a →
      MemStorage.updateActivity id {} st = (some a, st)) ∧
    (∀ (id : Int) (p : TaskPatch) (st : St) (t : Task),
      MemStorage.getTask id st = some t →
      MemStorage.updateTask id p st =
        (some ⟨t.id, p.title.getD t.title, p.description.getD t.description,
               p.location.getD t.location,
               (match p.priority with | some s => some s | none => t.priority),
               (match p.status with | some s => some s | none => t.status),
               p.category.getD t.category, p.assignedTo.getD t.assignedTo,
               p.scheduledDate.getD t.scheduledDate, t.completed,
               t.completedAt⟩,
         { st with tasks := ⟨st.tasks.nextId,
             mapSet id ⟨t.id, p.title.getD t.title,
               p.description.getD t.description, p.location.getD t.location,
               (match p.priority with | some s => some s | none => t.priority),
               (match p.status with | some s => some s | none => t.status),
               p.category.getD t.category, p.assignedTo.getD t.assignedTo,
               p.scheduledDate.getD t.scheduledDate, t.completed,
               t.completedAt⟩ st.tasks.entries⟩ })) ∧
    (∀ (id : Int) (st : St) (t : Task),
      MemStorage.getTask id st = some t →
      MemStorage.updateTask id {} st = (some t, st)) ∧
    (∀ (id : Int) (p : MetricPatch) (st : St) (m : Metric),
      MemStorage.getMetric id st = some m →
      MemStorage.updateMetric id p st =
        (some ⟨m.id, p.name.getD m.name, p.value.getD m.value,
               p.unit.getD m.unit, p.previousValue.getD m.previousValue,
               p.changePercentage.getD m.changePercentage,
               p.trend.getD m.trend, p.icon.getD m.icon,
               p.category.getD m.category, m.timestamp⟩,
         { st with metrics := ⟨st.metrics.nextId,
             mapSet id ⟨m.id, p.name.getD m.name, p.value.getD m.value,
               p.unit.getD m.unit, p.previousValue.getD m.previousValue,
               p.changePercentage.getD m.changePercentage,
               p.trend.getD m.trend, p.icon.getD m.icon,
               p.category.getD m.category, m.timestamp⟩ st.metrics.entries⟩ })) ∧
    (∀ (id : Int) (st : St) (m : Metric),
      MemStorage.getMetric id st = some m →
      MemStorage.updateMetric id {} st = (some m, st)) := by
  refine ⟨?_, ?_, ?_, ?_, ?_, ?_, ?_, ?_, ?_, ?_, ?_, ?_, ?_, ?_⟩
  · intro id p st u h
    have h' : mapGet id st.users.entries = some u := h
    simp only [MemStorage.updateUser, h']
  · intro id st u h
    have h' : mapGet id st.users.entries = some u := h
    simp only [MemStorage.updateUser, h']
    show (some u,
      { st with users := ⟨st.users.nextId, mapSet id u st.users.entries⟩ }) =
      (some u, st)
    rw [mapSet_self h']
  · intro id p st r h
    have h' : mapGet id st.regions.entries = some r := h
    simp only [MemStorage.updateRegion, h']
  · intro id st r h
    have h' : mapGet id st.regions.entries = some r := h
    simp only [MemStorage.updateRegion, h']
    show (some r,
      { st with regions := ⟨st.regions.nextId, mapSet id r st.regions.entries⟩ }) =
      (some r, st)
    rw [mapSet_self h']
  · intro id p now st l h
    have h' : mapGet id st.locations.entries = some l := h
    simp only [MemStorage.updateLocation, h']
  · intro id now st l h
    have h' : mapGet id st.locations.entries = some l := h
    simp only [MemStorage.updateLocation, h']
    rfl
  · intro id p now st i h
    have h' : mapGet id st.inventoryItems.entries = some i := h
    simp only [MemStorage.updateInventoryItem, h']
  · intro id now st i h
    have h' : mapGet id st.inventoryItems.entries = some i := h
    simp only [MemStorage.updateInventoryItem, h']
    rfl
  · intro id p st a h
    have h' : mapGet id st.activities.entries = some a := h
    simp only [MemStorage.updateActivity, h']
  · intro id st a h
    have h' : mapGet id st.activities.entries = some a := h
    simp only [MemStorage.updateActivity, h']
    show (some a,
      { st with activities :=
          ⟨st.activities.nextId, mapSet id a st.activities.entries⟩ }) =
      (some a, st)
    rw [mapSet_self h']
  · intro id p st t h
    have h' : mapGet id st.tasks.entries = some t := h
    simp only [MemStorage.updateTask, h']
  · intro id st t h
    have h' : mapGet id st.tasks.entries = some t := h
    simp only [MemStorage.updateTask, h']
    show (some t,
      { st with tasks := ⟨st.tasks.nextId, mapSet id t st.tasks.entries⟩ }) =
      (some t, st)
    rw [mapSet_self h']
  · intro id p st m h
    have h' : mapGet id st.metrics.entries = some m := h
    simp only [MemStorage.updateMetric, h']
  · intro id st m h
    have h' : mapGet id st.metrics.entries = some m := h
    simp only [MemStorage.updateMetric, h']
    show (some m,
      { st with metrics := ⟨st.metrics.nextId, mapSet id m st.metrics.entries⟩ }) =
      (some m, st)
    rw [mapSet_self h']

/-- C8 (witness): an empty partial update of seeded user 2 returns the
stored record and leaves the whole store untouched. -/
theorem C8_witness :
    MemStorage.updateUser 2 {} (seedStore 0) =
      (some ⟨2, "jforester", "password123", "John Forester",
             "john@forestmanager.com", some "manager", none⟩, seedStore 0) :=
  C8_merge_update.2.1 2 (seedStore 0)
    ⟨2, "jforester", "password123", "John Forester",
     "john@forestmanager.com", some "manager", none⟩ rfl

/-- The id path segment misses in a table: it either fails to parse
(`parseInt` yields `NaN`, which no stored key equals) or parses to an
integer with no record. -/
def missesIn {α : Type} (s : String) (tbl : Table α) : Prop :=
  ∀ k, parseIntJs s = some k → mapGet k tbl.entries = none

/-- C9: on every get/update/delete (and task-complete) endpoint, an id
segment that fails to parse produces exactly the outcome of a well-formed
id with no matching record — captured by `missesIn`, which a failed parse
satisfies vacuously: a 404 with the per-resource not-found message and the
store left unchanged, never a distinct parse error. -/
theorem C9_bad_id_not_found :
    (∀ {α : Type} (s : String) (tbl : Table α),
      parseIntJs s = none → missesIn s tbl) ∧
    ∀ (s : String) (st : St),
      (missesIn s st.users →
        getUserRoute s st = (.err 404 "User not found", st) ∧
        (∀ p, putUserRoute s p st = (.err 404 "User not found", st)) ∧
        deleteUserRoute s st = (.err 404 "User not found", st)) ∧
      (missesIn s st.regions →
        getRegionRoute s st = (.err 404 "Region not found", st) ∧
        (∀ p, putRegionRoute s p st = (.err 404 "Region not found", st)) ∧
        deleteRegionRoute s st = (.err 404 "Region not found", st)) ∧
      (missesIn s st.locations →
        getLocationRoute s st = (.err 404 "Location not found", st) ∧
        (∀ p now,
          putLocationRoute s p now st = (.err 404 "Location not found", st)) ∧
        deleteLocationRoute s st = (.err 404 "Location not found", st)) ∧
      (missesIn s st.inventoryItems →
        getInventoryRoute s st = (.err 404 "Inventory item not found", st) ∧
        (∀ p now,
          putInventoryRoute s p now st =
            (.err 404 "Inventory item not found", st)) ∧
        deleteInventoryRoute s st =
          (.err 404 "Inventory item not found", st)) ∧
      (missesIn s st.activities →
        getActivityRoute s st = (.err 404 "Activity not found", st) ∧
        (∀ p, putActivityRoute s p st = (.err 404 "Activity not found", st)) ∧
        deleteActivityRoute s st = (.err 404 "Activity not found", st)) ∧
      (missesIn s st.tasks →
        getTaskRoute s st = (.err 404 "Task not found", st) ∧
        (∀ p, putTaskRoute s p st = (.err 404 "Task not found", st)) ∧
        (∀ now,
          completeTaskRoute s now st = (.err 404 "Task not found", st)) ∧
        deleteTaskRoute s st = (.err 404 "Task not found", st)) ∧
      (missesIn s st.metrics →
        getMetricRoute s st = (.err 404 "Metric not found", st) ∧
        (∀ p, putMetricRoute s p st = (.err 404 "Metric not found", st)) ∧
        deleteMetricRoute s st = (.err 404 "Metric not found", st)) := by
  constructor
  · intro α s tbl hp k hk
    rw [hp] at hk
    exact Option.noConfusion hk
  intro s st
  refine ⟨?_, ?_, ?_, ?_, ?_, ?_, ?_⟩
  · intro h
    refine ⟨?_, ?_, ?_⟩
    · cases hp : parseIntJs s with
      | none => simp [getUserRoute, hp]
      | some k => simp [getUserRoute, hp, MemStorage.getUser, h k hp]
    · intro p
      cases hp : parseIntJs s with
      | none => simp [putUserRoute, hp]
      | some k => simp [putUserRoute, hp, MemStorage.updateUser, h k hp]
    · cases hp : parseIntJs s with
      | none => simp [deleteUserRoute, hp]
      | some k =>
        have hd := mapDelete_not_mem ((mapGet_eq_none_iff k _).mp (h k hp))
        simp [deleteUserRoute, hp, MemStorage.deleteUser, hd]
  · intro h
    refine ⟨?_, ?_, ?_⟩
    · cases hp : parseIntJs s with
      | none => simp [getRegionRoute, hp]
      | some k => simp [getRegionRoute, hp, MemStorage.getRegion, h k hp]
    · intro p
      cases hp : parseIntJs s with
      | none => simp [putRegionRoute, hp]
      | some k => simp [putRegionRoute, hp, MemStorage.updateRegion, h k hp]
    · cases hp : parseIntJs s with
      | none => simp [deleteRegionRoute, hp]
      | some k =>
        have hd := mapDelete_not_mem ((mapGet_eq_none_iff k _).mp (h k hp))
        simp [deleteRegionRoute, hp, MemStorage.deleteRegion, hd]
  · intro h
    refine ⟨?_, ?_, ?_⟩
    · cases hp : parseIntJs s with
      | none => simp [getLocationRoute, hp]
      | some k => simp [getLocationRoute, hp, MemStorage.getLocation, h k hp]
    · intro p now
      cases hp : parseIntJs s with
      | none => simp [putLocationRoute, hp]
      | some k =>
        simp [putLocationRoute, hp, MemStorage.updateLocation, h k hp]
    · cases hp : parseIntJs s with
      | none => simp [deleteLocationRoute, hp]
      | some k =>
        have hd := mapDelete_not_mem ((mapGet_eq_none_iff k _).mp (h k hp))
        simp [deleteLocationRoute, hp, MemStorage.deleteLocation, hd]
  · intro h
    refine ⟨?_, ?_, ?_⟩
    · cases hp : parseIntJs s with
      | none => simp [getInventoryRoute, hp]
      | some k =>
        simp [getInventoryRoute, hp, MemStorage.getInventoryItem, h k hp]
    · intro p now
      cases hp : parseIntJs s with
      | none => simp [putInventoryRoute, hp]
      | some k =>
        simp [putInventoryRoute, hp, MemStorage.updateInventoryItem, h k hp]
    · cases hp : parseIntJs s with
      | none => simp [deleteInventoryRoute, hp]
      | some k =>
        have hd := mapDelete_not_mem ((mapGet_eq_none_iff k _).mp (h k hp))
        simp [deleteInventoryRoute, hp, MemStorage.deleteInventoryItem, hd]
  · intro h
    refine ⟨?_, ?_, ?_⟩
    · cases hp : parseIntJs s with
      | none => simp [getActivityRoute, hp]
      | some k => simp [getActivityRoute, hp, MemStorage.getActivity, h k hp]
    · intro p
      cases hp : parseIntJs s with
      | none => simp [putActivityRoute, hp]
      | some k =>
        simp [putActivityRoute, hp, MemStorage.updateActivity, h k hp]
    · cases hp : parseIntJs s with
      | none => simp [deleteActivityRoute, hp]
      | some k =>
        have hd := mapDelete_not_mem ((mapGet_eq_none_iff k _).mp (h k hp))
        simp [deleteActivityRoute, hp, MemStorage.deleteActivity, hd]
  · intro h
    refine ⟨?_, ?_, ?_, ?_⟩
    · cases hp : parseIntJs s with
      | none => simp [getTaskRoute, hp]
      | some k => simp [getTaskRoute, hp, MemStorage.getTask, h k hp]
    · intro p
      cases hp : parseIntJs s with
      | none => simp [putTaskRoute, hp]
      | some k => simp [putTaskRoute, hp, MemStorage.updateTask, h k hp]
    · intro now
      cases hp : parseIntJs s with
      | none => simp [completeTaskRoute, hp]
      | some k => simp [completeTaskRoute, hp, MemStorage.completeTask, h k hp]
    · cases hp : parseIntJs s with
      | none => simp [deleteTaskRoute, hp]
      | some k =>
        have hd := mapDelete_not_mem ((mapGet_eq_none_iff k _).mp (h k hp))
        simp [deleteTaskRoute, hp, MemStorage.deleteTask, hd]
  · intro h
    refine ⟨?_, ?_, ?_⟩
    · cases hp : parseIntJs s with
      | none => simp [getMetricRoute, hp]
      | some k => simp [getMetricRoute, hp, MemStorage.getMetric, h k hp]
    · intro p
      cases hp : parseIntJs s with
      | none => simp [putMetricRoute, hp]
      | some k => simp [putMetricRoute, hp, MemStorage.updateMetric, h k hp]
    · cases hp : parseIntJs s with
      | none => simp [deleteMetricRoute, hp]
      | some k =>
        have hd := mapDelete_not_mem ((mapGet_eq_none_iff k _).mp (h k hp))
        simp [deleteMetricRoute, hp, MemStorage.deleteMetric, hd]

/-- C9 (witness): `GET /api/users/abc` (id fails to parse) on the empty
store answers 404 with the user not-found message and leaves the store
unchanged. -/
theorem C9_witness :
    getUserRoute "abc" St.empty = (ApiResp.err 404 "User not found", St.empty) :=
  ((C9_bad_id_not_found.2 "abc" St.empty).1
    (C9_bad_id_not_found.1 "abc" St.empty.users rfl)).1

end ForesTracker
